import Mathlib

/-! Authentication module (`assets/js/modules/auth.js`)

A shallow embedding of the pure and DOM-level parts of the `Auth` object:
password strength scoring, single-field validation and whole-form validation.

JavaScript strings are sequences of UTF-16 code units; `length`, `trim` and
regular expressions without the `u` flag all work on code units, so a string
value is modelled as a list of code units.
-/

namespace Auth

/-- A JavaScript string value: its UTF-16 code units. -/
abbrev JSString := List Nat

/-- UTF-16 code units of one Unicode scalar value. -/
def utf16Char (c : Char) : List Nat :=
  if c.toNat < 65536 then [c.toNat]
  else [55296 + (c.toNat - 65536) / 1024, 56320 + (c.toNat - 65536) % 1024]

/-- UTF-16 code units of a string literal. -/
def utf16 (s : String) : JSString :=
  s.toList.flatMap utf16Char

/-! ## Character classes used by the regular expressions of the module -/

/-- Class `[a-z]`. -/
def isLowerAZ (c : Nat) : Bool := decide (97 ≤ c) && decide (c ≤ 122)

/-- Class `[A-Z]`. -/
def isUpperAZ (c : Nat) : Bool := decide (65 ≤ c) && decide (c ≤ 90)

/-- Class `[0-9]`. -/
def isDigit09 (c : Nat) : Bool := decide (48 ≤ c) && decide (c ≤ 57)

/-- Class `[^a-zA-Z0-9]`. -/
def isSpecial (c : Nat) : Bool := !(isLowerAZ c || isUpperAZ c || isDigit09 c)

/-- The test `/[...]/.test(s)` of an unanchored one-class pattern: some code unit
of `s` lies in the class. -/
def testClass (cls : Nat → Bool) (s : JSString) : Bool := s.any cls

/-! ## Password strength -/

/-- Result object of `calculatePasswordStrength`. -/
structure Strength where
  level : String
  score : Nat
  feedback : List String
  deriving DecidableEq, Repr

/-- The function `Auth.calculatePasswordStrength(password)`. -/
def calculatePasswordStrength (password : JSString) : Strength :=
  let score := 0
  let feedback : List String := []
  if password.length = 0 then
    { level := "none", score := 0, feedback := [] }
  else
    -- Length checks
    let score := if password.length ≥ 8 then score + 1 else score
    let score := if password.length ≥ 12 then score + 1 else score
    let score := if password.length ≥ 16 then score + 1 else score
    -- Character type checks
    let lower := testClass isLowerAZ password
    let score := if lower then score + 1 else score
    let feedback := if lower then feedback else feedback ++ ["Add lowercase letters"]
    let upper := testClass isUpperAZ password
    let score := if upper then score + 1 else score
    let feedback := if upper then feedback else feedback ++ ["Add uppercase letters"]
    let digit := testClass isDigit09 password
    let score := if digit then score + 1 else score
    let feedback := if digit then feedback else feedback ++ ["Add numbers"]
    let special := testClass isSpecial password
    let score := if special then score + 2 else score
    let feedback := if special then feedback else feedback ++ ["Add special characters"]
    -- Determine level
    let level :=
      if score ≥ 7 then "strong"
      else if score ≥ 5 then "good"
      else if score ≥ 3 then "fair"
      else "weak"
    { level := level, score := score, feedback := feedback }

/-- Indicator of a condition: `1` when it holds, `0` otherwise. -/
def ind (b : Bool) : Nat := if b then 1 else 0


/-! ## Whitespace and `trim` -/

/-- Code units that are WhiteSpace or LineTerminator in ECMAScript: the ones
`String.prototype.trim` strips and the class `\s` matches. -/
def isWhiteSpace (c : Nat) : Bool :=
  c == 9 || c == 10 || c == 11 || c == 12 || c == 13 || c == 32 || c == 160 ||
  c == 5760 || (decide (8192 ≤ c) && decide (c ≤ 8202)) || c == 8232 || c == 8233 ||
  c == 8239 || c == 8287 || c == 12288 || c == 65279

/-- The call `s.trim()`: strip leading and trailing whitespace. -/
def trim (s : JSString) : JSString :=
  (s.dropWhile isWhiteSpace).rdropWhile isWhiteSpace

/-! ## Regular expressions

The anchored patterns of the module (`/^...$/`) are built from character classes,
concatenation and `+`.  They are run by Brzozowski derivatives, one code unit at a
time. -/

/-- Regular expressions over code units. -/
inductive Regex where
  | none : Regex
  | eps : Regex
  | cls : (Nat → Bool) → Regex
  | seq : Regex → Regex → Regex
  | alt : Regex → Regex → Regex
  | star : Regex → Regex

namespace Regex

/-- The quantifier `r+`. -/
def plus (r : Regex) : Regex := seq r (star r)

/-- Whether the expression accepts the empty string. -/
def nullable : Regex → Bool
  | none => false
  | eps => true
  | cls _ => false
  | seq a b => a.nullable && b.nullable
  | alt a b => a.nullable || b.nullable
  | star _ => true

/-- Derivative of the expression by one code unit. -/
def deriv : Regex → Nat → Regex
  | none, _ => none
  | eps, _ => none
  | cls p, c => if p c then eps else none
  | seq a b, c => if a.nullable then alt (seq (a.deriv c) b) (b.deriv c) else seq (a.deriv c) b
  | alt a b, c => alt (a.deriv c) (b.deriv c)
  | star a, c => seq (a.deriv c) (star a)

/-- The test `/^r$/.test(s)`: the whole string matches `r`. -/
def test (r : Regex) : JSString → Bool
  | [] => r.nullable
  | c :: cs => (r.deriv c).test cs

/-- Declarative meaning of an expression: the strings it matches. -/
inductive Matches : Regex → JSString → Prop
  | eps : Matches Regex.eps []
  | cls (p : Nat → Bool) (c : Nat) : p c = true → Matches (Regex.cls p) [c]
  | seq (a b : Regex) (s t : JSString) :
      Matches a s → Matches b t → Matches (Regex.seq a b) (s ++ t)
  | altL (a b : Regex) (s : JSString) : Matches a s → Matches (Regex.alt a b) s
  | altR (a b : Regex) (s : JSString) : Matches b s → Matches (Regex.alt a b) s
  | starNil (a : Regex) : Matches (Regex.star a) []
  | starCons (a : Regex) (s t : JSString) :
      Matches a s → Matches (Regex.star a) t → Matches (Regex.star a) (s ++ t)

end Regex

/-- Class `[^\s@]`. -/
def isNotSpaceAt (c : Nat) : Bool := !(isWhiteSpace c || c == 64)

/-- Class `[a-zA-Z0-9_]`. -/
def isWordChar (c : Nat) : Bool := isLowerAZ c || isUpperAZ c || isDigit09 c || c == 95

/-- The pattern `/^[^\s@]+@[^\s@]+\.[^\s@]+$/` of `validateField`. -/
def emailRegex : Regex :=
  .seq (.plus (.cls isNotSpaceAt))
    (.seq (.cls (fun c => c == 64))
      (.seq (.plus (.cls isNotSpaceAt))
        (.seq (.cls (fun c => c == 46)) (.plus (.cls isNotSpaceAt)))))

/-- The pattern `/^[a-zA-Z0-9_]+$/` of `validateField`. -/
def usernameRegex : Regex := .plus (.cls isWordChar)

/-! ## Configuration and document model -/

/-- The object `Auth.config.passwordRequirements`. -/
structure PasswordRequirements where
  uppercase : Bool := true
  lowercase : Bool := true
  number : Bool := true
  special : Bool := false
  deriving DecidableEq, Repr

/-- The object `Auth.config`. -/
structure Config where
  minPasswordLength : Nat := 8
  maxPasswordLength : Nat := 128
  passwordRequirements : PasswordRequirements := {}
  otpLength : Nat := 6
  resendOtpDelay : Nat := 60
  deriving DecidableEq, Repr

/-- The configuration literal of the module. -/
def config : Config := {}

/-- An `input` element: the properties and attributes the module reads or writes.
`parent` identifies `input.parentElement`; inputs with the same key share their
parent element, and parent elements with different keys are disjoint subtrees. -/
structure Input where
  value : JSString
  type : String
  name : String
  required : Bool
  dataValidate : Bool
  classList : List String
  parent : Nat
  deriving DecidableEq, Repr

/-- The part of the document the validation code touches: every `input` element in
document order, and every `.invalid-feedback` element in document order, each with
the key of the parent element that contains it and its text content. -/
structure Document where
  inputs : List Input
  feedback : List (Nat × String)
  deriving DecidableEq, Repr

/-- The call `classList.remove(...tokens)`. -/
def classListRemove (classList : List String) (tokens : List String) : List String :=
  classList.filter (fun c => !tokens.contains c)

/-- The call `classList.add(token)`. -/
def classListAdd (classList : List String) (token : String) : List String :=
  if classList.contains token then classList else classList ++ [token]

/-- The rule chain in the body of `Auth.validateField` (from `let isValid = true`
to the end of the `if ... else if` cascade): the final values of `isValid` and
`message` for the element `input` in the document `doc`. -/
def validateFieldRules (cfg : Config) (doc : Document) (input : Input) : Bool × String :=
  let value := trim input.value
  let type := input.type
  let name := input.name
  let isValid := true
  let message := ""
  -- Required check
  if input.required && value.isEmpty then
    (false, "This field is required")
  -- Email validation
  else if type == "email" && !value.isEmpty then
    if !emailRegex.test value then
      (false, "Please enter a valid email address")
    else (isValid, message)
  -- Password validation
  else if type == "password" && !value.isEmpty && name == "password" then
    if value.length < cfg.minPasswordLength then
      (false, "Password must be at least " ++ toString cfg.minPasswordLength ++ " characters")
    else (isValid, message)
  -- Confirm password
  else if name == "confirmPassword" then
    match doc.inputs.find? (fun inp => inp.name == "password") with
    | some password =>
      if value ≠ password.value then (false, "Passwords do not match")
      else (isValid, message)
    | Option.none => (isValid, message)
  -- Username validation
  else if name == "username" && !value.isEmpty then
    if value.length < 3 then
      (false, "Username must be at least 3 characters")
    else if !usernameRegex.test value then
      (false, "Username can only contain letters, numbers, and underscores")
    else (isValid, message)
  else (isValid, message)

/-- The function `Auth.validateField(input)`, where `input` is the `i`-th input element
of the document; an index outside the document denotes no element and nothing is done.
Returns the document afterwards and the returned `isValid`. -/
def validateField (cfg : Config) (doc : Document) (i : Nat) : Document × Bool :=
  match doc.inputs[i]? with
  | Option.none => (doc, true)
  | some input =>
    let value := trim input.value
    -- Remove previous states
    let classList := classListRemove input.classList ["is-valid", "is-invalid"]
    let feedback := doc.feedback.eraseP (fun f => f.1 == input.parent)
    let rules := validateFieldRules cfg doc input
    let isValid := rules.1
    let message := rules.2
    -- Apply validation state
    let classList :=
      if !value.isEmpty then classListAdd classList (if isValid then "is-valid" else "is-invalid")
      else classList
    -- Show error message
    let feedback :=
      if !isValid && message ≠ "" then feedback ++ [(input.parent, message)]
      else feedback
    ({ inputs := doc.inputs.set i { input with classList := classList },
       feedback := feedback }, isValid)

/-- The node list `form.querySelectorAll` returns for the selector
`input[required], input[data-validate]`, for a form whose input descendants are the
document inputs at the positions `form` (in document order). -/
def selectInputs (doc : Document) (form : List Nat) : List Nat :=
  form.filter (fun i =>
    match doc.inputs[i]? with
    | some input => input.required || input.dataValidate
    | Option.none => false)

/-- The function `Auth.validateForm(form)`.  Returns the document afterwards and the
returned `isValid`. -/
def validateForm (cfg : Config) (doc : Document) (form : List Nat) : Document × Bool :=
  let isValid := true
  let inputs := selectInputs doc form
  inputs.foldl
    (fun (state : Document × Bool) i =>
      let r := validateField cfg state.1 i
      (r.1, if !r.2 then false else state.2))
    (doc, isValid)

/-! ## Specification-side vocabulary -/

/-- The four hints in their fixed order, each paired with whether its criterion
is met by the password. -/
def hintTable (password : JSString) : List (Bool × String) :=
  [ (testClass isLowerAZ password, "Add lowercase letters"),
    (testClass isUpperAZ password, "Add uppercase letters"),
    (testClass isDigit09 password, "Add numbers"),
    (testClass isSpecial password, "Add special characters") ]

/-- The shape `local@domain.tld` in the words of the specification: no whitespace,
exactly one `@`, a non-empty part before it, and after it a part containing a `.`
that is neither its first nor its last character. -/
def EmailShape (v : JSString) : Prop :=
  (∀ c ∈ v, isWhiteSpace c = false) ∧ v.count 64 = 1 ∧
  ∃ loc dom, v = loc ++ 64 :: dom ∧ loc ≠ [] ∧
    ∃ a b, dom = a ++ 46 :: b ∧ a ≠ [] ∧ b ≠ []

/-- The class list of an input after the removal of the classes `is-valid` and
`is-invalid`. -/
def clearedClassList (input : Input) : List String :=
  classListRemove input.classList ["is-valid", "is-invalid"]

/-- The feedback elements of the document after the first `.invalid-feedback` inside
the parent element of `input`, if any, has been removed. -/
def clearedFeedback (doc : Document) (input : Input) : List (Nat × String) :=
  doc.feedback.eraseP (fun f => f.1 == input.parent)

/-- The class list `validateField` leaves on an input, given the verdict. -/
def markedClassList (input : Input) (isValid : Bool) : List String :=
  if !(trim input.value).isEmpty then
    classListAdd (clearedClassList input) (if isValid then "is-valid" else "is-invalid")
  else clearedClassList input

/-- The data of an input that validation reads: everything except the class list. -/
def Input.data (inp : Input) : Input := { inp with classList := [] }

/-- The data of all inputs of a document, in document order. -/
def Document.data (doc : Document) : List Input := doc.inputs.map Input.data

/-- The document after one more call of `validateField`. -/
def stepField (cfg : Config) (doc : Document) (i : Nat) : Document :=
  (validateField cfg doc i).1

/-! ## Sample documents -/

/-- An input element without classes and without the `data-validate` attribute,
whose value is given as a string literal. -/
def mkInput (value type name : String) (required : Bool) (parent : Nat) : Input :=
  { value := utf16 value, type := type, name := name, required := required,
    dataValidate := false, classList := [], parent := parent }

/-- A document with the given inputs and no feedback element. -/
def sampleDoc (inputs : List Input) : Document :=
  { inputs := inputs, feedback := [] }

/-! ## Submit pipeline

The submit handler of a form, `handleFormSubmit` up to its `await`, and the
continuation that runs when the promise of `simulateApiCall` settles. -/

/-- The submit button of the form: its markup, its `disabled` flag and
`dataset.originalText` (absent until `setLoadingState` stores it). -/
structure Button where
  innerHTML : String
  disabled : Bool
  originalText : Option String
  deriving DecidableEq, Repr

/-- The markup `setLoadingState` shows while loading. -/
def spinnerHTML : String := "<span class=\"spinner\"></span> Please wait..."

/-- The function `Auth.setLoadingState(button, isLoading)`; `none` is a form without a
submit button.  An absent `dataset.originalText` reads as `undefined`. -/
def setLoadingState (button : Option Button) (isLoading : Bool) : Option Button :=
  match button with
  | Option.none => Option.none
  | some b =>
    if isLoading then
      some { innerHTML := spinnerHTML, disabled := true, originalText := some b.innerHTML }
    else
      some { innerHTML := b.originalText.getD "undefined", disabled := false,
             originalText := b.originalText }

/-- The static markup of an authentication form: the positions of its input
descendants among the document inputs, `form.dataset.authType`, and whether the
document has an `.auth-card` element. -/
structure Form where
  inputs : List Nat
  authType : Option String
  hasAuthCard : Bool
  deriving DecidableEq, Repr

/-- The entries of `new FormData(form)`: name and current value of every input of the
form that has a name (unchecked boxes, disabled and file inputs are outside the
model). -/
def formEntries (doc : Document) (form : List Nat) : List (String × JSString) :=
  form.filterMap (fun i =>
    match doc.inputs[i]? with
    | some input => if input.name ≠ "" then some (input.name, input.value) else Option.none
    | Option.none => Option.none)

/-- The property `data[key]` of `Object.fromEntries(entries)`: the value of the last
entry with that key, `none` for `undefined`. -/
def getProp (data : List (String × JSString)) (key : String) : Option JSString :=
  (data.reverse.find? (fun e => e.1 == key)).map Prod.snd

/-- String conversion of a property that may be `undefined`. -/
def toJSString (v : Option JSString) : JSString := v.getD (utf16 "undefined")

/-- One invocation of `simulateApiCall(type, data)`. -/
structure ApiCall where
  formType : Option String
  data : List (String × JSString)
  deriving DecidableEq, Repr

/-- The rejection reason handed to `handleError` when it is not `null` or `undefined`:
an object (or a primitive) whose `message` property may be absent. -/
structure ErrorObject where
  message : Option JSString
  deriving DecidableEq, Repr

/-- How the promise returned by the backend call settles.  `simulateApiCall` as written
always resolves; the rejection is what the `catch` branch of `handleFormSubmit` is
there for once the call is replaced by a real one.  `rejectedNullish` is a rejection
whose reason is `null` or `undefined`. -/
inductive Outcome where
  | resolved : Outcome
  | rejected : ErrorObject → Outcome
  | rejectedNullish : Outcome
  deriving DecidableEq, Repr

/-- The state of the page around one authentication form. -/
structure Page where
  doc : Document
  submitBtn : Option Button
  pending : List ApiCall
  apiCalls : List ApiCall
  storage : List (String × JSString)
  navigations : List String
  messages : List (JSString × String)
  successScreen : Option (JSString × JSString)
  timeouts : List String
  deriving DecidableEq, Repr

/-- The call `localStorage.setItem(key, value)`. -/
def setItem (storage : List (String × JSString)) (key : String) (value : JSString) :
    List (String × JSString) :=
  storage.filter (fun e => e.1 != key) ++ [(key, value)]

/-- The call `localStorage.getItem(key)`. -/
def getItem (storage : List (String × JSString)) (key : String) : Option JSString :=
  (storage.find? (fun e => e.1 == key)).map Prod.snd

/-- The call `Auth.showMessage(message, type)`: a toast with the text and severity is
requested. -/
def showMessage (message : JSString) (type : String) (p : Page) : Page :=
  { p with messages := p.messages ++ [(message, type)] }

/-- The call `Auth.showSuccessScreen(title, message)`: the content of `.auth-card`, if
the document has one, is replaced by the success screen. -/
def showSuccessScreen (form : Form) (title message : JSString) (p : Page) : Page :=
  if !form.hasAuthCard then p else { p with successScreen := some (title, message) }

/-- The function `Auth.handleSuccess(formType, data)`. -/
def handleSuccess (form : Form) (formType : Option String) (data : List (String × JSString))
    (p : Page) : Page :=
  if formType = some "login" then
    -- Store auth token (simulated)
    let storage := setItem p.storage "auth_token" (utf16 "simulated_token")
    let storage := setItem storage "user_email" (toJSString (getProp data "email"))
    -- Redirect to dashboard
    { p with storage := storage, navigations := p.navigations ++ ["index.html"] }
  else if formType = some "register" then
    let p := showMessage (utf16
      "Account created successfully! Please check your email to verify your account.")
      "success" p
    { p with timeouts := p.timeouts ++ ["login.html"] }
  else if formType = some "forgot-password" then
    showSuccessScreen form (utf16 "Check Your Email")
      (utf16 "We\x27ve sent a password reset link to <strong>"
        ++ toJSString (getProp data "email") ++ utf16 "</strong>. Please check your inbox.") p
  else if formType = some "reset-password" then
    let p := showMessage (utf16 "Password reset successfully!") "success" p
    { p with timeouts := p.timeouts ++ ["login.html"] }
  else if formType = some "verify-otp" then
    { p with navigations := p.navigations ++ ["index.html"] }
  else p

/-- The function `Auth.handleError(error)`. -/
def handleError (error : ErrorObject) (p : Page) : Page :=
  let message :=
    match error.message with
    | some m => if m.isEmpty then utf16 "An error occurred. Please try again." else m
    | Option.none => utf16 "An error occurred. Please try again."
  showMessage message "error" p

/-- The function `Auth.handleFormSubmit(form)` up to its `await`: the button enters the
loading state, the form data is collected and `simulateApiCall` is invoked; the call
stays pending until its promise settles. -/
def handleFormSubmit (form : Form) (p : Page) : Page :=
  let submitBtn := setLoadingState p.submitBtn true
  let data := formEntries p.doc form.inputs
  let call : ApiCall := { formType := form.authType, data := data }
  { p with submitBtn := submitBtn, apiCalls := p.apiCalls ++ [call],
           pending := p.pending ++ [call] }

/-- The submit listener installed by `initFormValidation`. -/
def onSubmit (cfg : Config) (form : Form) (p : Page) : Page :=
  let r := validateForm cfg p.doc form.inputs
  let p := { p with doc := r.1 }
  if r.2 then handleFormSubmit form p else p

/-- The rest of `handleFormSubmit` after the `await`, run when the promise of the
`k`-th pending call settles: `handleSuccess` or `handleError`, then the `finally`
block.  With `null` or `undefined` as reason, `handleError` throws when it reads
`error.message`, before `showMessage` is called; the `finally` block still runs. -/
def settle (form : Form) (k : Nat) (outcome : Outcome) (p : Page) : Page :=
  match p.pending[k]? with
  | Option.none => p
  | some call =>
    let p := { p with pending := p.pending.eraseIdx k }
    let p :=
      match outcome with
      | Outcome.resolved => handleSuccess form call.formType call.data p
      | Outcome.rejected error => handleError error p
      | Outcome.rejectedNullish => p
    { p with submitBtn := setLoadingState p.submitBtn false }

/-- A `setTimeout` callback of `handleSuccess` fires after its 2000 ms: the delayed
navigation is requested. -/
def onTimeout (p : Page) : Page :=
  match p.timeouts with
  | [] => p
  | url :: rest => { p with timeouts := rest, navigations := p.navigations ++ [url] }

/-- A page in its initial state around the given document and submit button. -/
def samplePage (doc : Document) (button : Option Button) : Page :=
  { doc := doc, submitBtn := button, pending := [], apiCalls := [], storage := [],
    navigations := [], messages := [], successScreen := Option.none, timeouts := [] }

/-- The login form of the end-to-end scenario: an email and a password field. -/
def loginDoc (email password : String) : Document :=
  sampleDoc [mkInput email "email" "email" true 0,
    mkInput password "password" "password" true 1]

/-- A login form over the two inputs of `loginDoc`. -/
def loginForm : Form := { inputs := [0, 1], authType := some "login", hasAuthCard := true }

/-- A submit button labelled Sign In. -/
def signInButton : Button :=
  { innerHTML := "Sign In", disabled := false, originalText := Option.none }
/-- One whole submission with nothing in between: the submit action on the page,
followed by the settlement of the call that this action started. -/
def submitAndSettle (cfg : Config) (form : Form) (outcome : Outcome) (p : Page) : Page :=
  settle form p.pending.length outcome (onSubmit cfg form p)

/-- What can happen on the page between a submit action and the settlement of its
call, other than another submit action: the call of some submission settles, or a
`setTimeout` callback of `handleSuccess` fires. -/
inductive OtherEvent where
  | settled : Form → Nat → Outcome → OtherEvent
  | timeout : OtherEvent

/-- One event other than a submit action. -/
def otherStep (p : Page) : OtherEvent → Page
  | OtherEvent.settled form k outcome => settle form k outcome p
  | OtherEvent.timeout => onTimeout p

/-- A sequence of events other than submit actions, in order. -/
def runOther (events : List OtherEvent) (p : Page) : Page := events.foldl otherStep p

/-- The backend call a submit action on the page invokes. -/
def submittedCall (form : Form) (p : Page) : ApiCall :=
  { formType := form.authType, data := formEntries p.doc form.inputs }

/-- The page while the call of a submit action on a valid form is pending, with that
call already taken off the pending list. -/
def submittedPage (cfg : Config) (form : Form) (p : Page) : Page :=
  { doc := (validateForm cfg p.doc form.inputs).1,
    submitBtn := setLoadingState p.submitBtn true,
    pending := p.pending,
    apiCalls := p.apiCalls ++ [submittedCall form p],
    storage := p.storage, navigations := p.navigations, messages := p.messages,
    successScreen := p.successScreen, timeouts := p.timeouts }

/-- The submit button as `setLoadingState(button, false)` leaves it after a submission
that found it with the given state: enabled and showing the content it had. -/
def restoredButton (b : Button) : Button :=
  { innerHTML := b.innerHTML, disabled := false, originalText := some b.innerHTML }
/-- A register form over the two inputs of `loginDoc`. -/
def registerForm : Form :=
  { inputs := [0, 1], authType := some "register", hasAuthCard := true }

/-! ## OTP inputs -/

/-- Leading surrogate code units (0xD800 to 0xDBFF). -/
def isHighSurrogate (c : Nat) : Bool := decide (55296 ≤ c) && decide (c ≤ 56319)

/-- Trailing surrogate code units (0xDC00 to 0xDFFF). -/
def isLowSurrogate (c : Nat) : Bool := decide (56320 ≤ c) && decide (c ≤ 57343)

/-- The array `[...s]`: the string iterator yields one string per code point, so a
leading surrogate followed by a trailing surrogate stays together as one element. -/
def spread : JSString → List JSString
  | [] => []
  | [c] => [[c]]
  | c :: d :: rest =>
    if isHighSurrogate c && isLowSurrogate d then [c, d] :: spread rest
    else [c] :: spread (d :: rest)

/-- Whether the string has a leading surrogate directly followed by a trailing one,
that is, a character outside the Basic Multilingual Plane. -/
def hasSurrogatePair : JSString → Bool
  | [] => false
  | [_] => false
  | c :: d :: rest =>
    (isHighSurrogate c && isLowSurrogate d) || hasSurrogatePair (d :: rest)

/-- One `.otp-input` element. -/
structure OtpInput where
  value : JSString
  classList : List String
  deriving DecidableEq, Repr

/-- The OTP part of the page: the `.otp-input` elements of the container in order, the
index of the one that has focus (`none` when the focus is elsewhere), and the
`disabled` flag of the first `.auth-submit-btn` of the document (`none` when there is
no such element). -/
structure OtpState where
  inputs : List OtpInput
  focus : Option Nat
  submitDisabled : Option Bool
  deriving DecidableEq, Repr

/-- The function `Auth.checkOtpComplete(inputs)`. -/
def checkOtpComplete (cfg : Config) (s : OtpState) : OtpState :=
  let otp := (s.inputs.map OtpInput.value).flatten
  if otp.length = cfg.otpLength then
    -- Auto-submit or enable submit button
    { s with submitDisabled := s.submitDisabled.map (fun _ => false) }
  else s

/-- The `input` listener of the slot at `index`, run after the browser has changed the
value of that slot. -/
def onOtpInput (cfg : Config) (s : OtpState) (index : Nat) : OtpState :=
  match s.inputs[index]? with
  | Option.none => s
  | some input =>
    let value := input.value
    let s :=
      if value.length = 1 then
        let filled : OtpInput :=
          { input with classList := classListAdd input.classList "filled" }
        let s := { s with inputs := s.inputs.set index filled }
        if index < s.inputs.length - 1 then { s with focus := some (index + 1) } else s
      else
        let cleared : OtpInput :=
          { input with classList := classListRemove input.classList ["filled"] }
        { s with inputs := s.inputs.set index cleared }
    -- Check if all inputs are filled
    checkOtpComplete cfg s

/-- The `keydown` listener of the slot at `index`, for the key value `key`. -/
def onOtpKeydown (s : OtpState) (index : Nat) (key : JSString) : OtpState :=
  match s.inputs[index]? with
  | Option.none => s
  | some input =>
    if key = utf16 "Backspace" && input.value.isEmpty && decide (index > 0) then
      { s with focus := some (index - 1) }
    else s

/-- The value a text-like `input` element holds after `input.value = v`: the value
sanitization of such inputs strips the line breaks U+000A and U+000D. -/
def sanitizeValue (v : JSString) : JSString :=
  v.filter (fun c => !(c == 10 || c == 13))

/-- One step of the `forEach` of the paste listener: the slot `i`, if there is one,
is assigned `char` as its value and gets the class `filled`. -/
def pasteChar (inputs : List OtpInput) (i : Nat) (char : JSString) : List OtpInput :=
  match inputs[i]? with
  | some input =>
    inputs.set i { value := sanitizeValue char,
                   classList := classListAdd input.classList "filled" }
  | Option.none => inputs

/-- The `paste` listener of the slot at `index` for the clipboard text `text`; the
default paste is prevented, and the listener does not look at `index`. -/
def onOtpPaste (cfg : Config) (s : OtpState) (_index : Nat) (text : JSString) : OtpState :=
  let pastedData := text.take cfg.otpLength
  let inputs := (spread pastedData).enum.foldl (fun inputs e => pasteChar inputs e.1 e.2) s.inputs
  let s := { s with inputs := inputs }
  let s :=
    if decide (pastedData.length ≥ 1) && decide (pastedData.length - 1 < s.inputs.length) then
      { s with focus := some (pastedData.length - 1) }
    else s
  checkOtpComplete cfg s

/-- The `keypress` listener: whether it calls `preventDefault` for the key value
`key`. -/
def keypressPrevented (key : JSString) : Bool := !testClass isDigit09 key

/-- One typed character key at the slot `index`: the `keydown` listener runs, then the
`keypress` listener; unless that one prevents it, the browser inserts the character,
after which the slot holds `valueAfter`, and the `input` listener runs. -/
def typeKey (cfg : Config) (s : OtpState) (index : Nat) (key valueAfter : JSString) :
    OtpState :=
  let s := onOtpKeydown s index key
  if keypressPrevented key then s
  else
    match s.inputs[index]? with
    | Option.none => s
    | some input =>
      let typed : OtpInput := { input with value := valueAfter }
      onOtpInput cfg { s with inputs := s.inputs.set index typed } index

/-- The default action of a character key on a text-like slot with nothing selected:
the text of the key is inserted, here at the end of the value, unless the value would
then be longer than the `maxlength` of the slot (`none` when the slot has no such
attribute), in which case nothing is inserted and no `input` event is sent.  The markup
of the slots is not part of the module, hence the parameter. -/
def insertText (maxLength : Option Nat) (old key : JSString) : Option JSString :=
  match maxLength with
  | Option.none => some (old ++ key)
  | some n => if old.length + key.length ≤ n then some (old ++ key) else Option.none

/-- Whether the key value is the text of a character key: one code point. -/
def isCharacterKey (key : JSString) : Bool := (spread key).length == 1

/-- One typed character key at the slot `index`, with the default action of
`insertText`: `keydown`, `keypress`, then the insertion and the `input` listener. -/
def typeChar (cfg : Config) (maxLength : Option Nat) (s : OtpState) (index : Nat)
    (key : JSString) : OtpState :=
  match s.inputs[index]? with
  | Option.none => s
  | some input =>
    match insertText maxLength input.value key with
    | some valueAfter => typeKey cfg s index key valueAfter
    | Option.none => onOtpKeydown s index key

/-- The slot a paste or a typed key leaves behind: the given value and the class
`filled` added to the classes of the slot. -/
def filledSlot (char : JSString) (input : OtpInput) : OtpInput :=
  { value := char, classList := classListAdd input.classList "filled" }

/-- An OTP form of `n` empty slots with a disabled submit button. -/
def emptyOtp (n : Nat) : OtpState :=
  { inputs := List.replicate n { value := [], classList := [] }, focus := some 0,
    submitDisabled := some true }

/-- An OTP form whose slots hold the given values, with a disabled submit button. -/
def otpOf (values : List JSString) : OtpState :=
  { inputs := values.map (fun v => { value := v, classList := [] }), focus := Option.none,
    submitDisabled := some true }

/-- An OTP form of six slots whose first slot holds the digit 1 and has the focus
again. -/
def revisitedOtp : OtpState :=
  { inputs := { value := utf16 "1", classList := ["filled"] } ::
      List.replicate 5 { value := [], classList := [] },
    focus := some 0, submitDisabled := some true }

/-- An edit of the slot at `index` by the user (typing, deleting, cutting): the browser
changes the value of the slot to `valueAfter` and the `input` listener runs. -/
def editSlot (cfg : Config) (s : OtpState) (index : Nat) (valueAfter : JSString) :
    OtpState :=
  match s.inputs[index]? with
  | Option.none => s
  | some input =>
    let edited : OtpInput := { input with value := valueAfter }
    onOtpInput cfg { s with inputs := s.inputs.set index edited } index

/-- What can happen to the OTP slots: an edit of a slot, a key going down on a slot, or
a paste on a slot. -/
inductive OtpEvent where
  | edit : Nat → JSString → OtpEvent
  | keydown : Nat → JSString → OtpEvent
  | paste : Nat → JSString → OtpEvent
  deriving DecidableEq, Repr

/-- One event on the OTP slots, handled by the listeners of `initOtpInputs`. -/
def otpStep (cfg : Config) (s : OtpState) : OtpEvent → OtpState
  | OtpEvent.edit index valueAfter => editSlot cfg s index valueAfter
  | OtpEvent.keydown index key => onOtpKeydown s index key
  | OtpEvent.paste index text => onOtpPaste cfg s index text

/-- The OTP slots after a sequence of events. -/
def runOtp (cfg : Config) (events : List OtpEvent) (s : OtpState) : OtpState :=
  events.foldl (otpStep cfg) s

/-! ## Resend timer -/

/-- The state `initResendTimer` sets up around the resend link: the closure variable
`countdown`, whether the link has the class `disabled`, the text of the link (`none`
while it still shows the text of the markup), whether the interval timer is still
installed, and what `resendOtp` has done so far. -/
structure ResendTimer where
  countdown : Int
  disabled : Bool
  textContent : Option String
  intervalActive : Bool
  resendCalls : Nat
  messages : List (JSString × String)
  deriving DecidableEq, Repr

/-- The function `Auth.initResendTimer()` on a page that has a resend link. -/
def initResendTimer (cfg : Config) : ResendTimer :=
  { countdown := cfg.resendOtpDelay, disabled := true, textContent := Option.none,
    intervalActive := true, resendCalls := 0, messages := [] }

/-- The callback handed to `setInterval`. -/
def onInterval (t : ResendTimer) : ResendTimer :=
  let countdown := t.countdown - 1
  let text := "Resend in " ++ toString countdown ++ "s"
  if countdown ≤ 0 then
    { t with countdown := countdown, intervalActive := false,
             textContent := some "Resend OTP", disabled := false }
  else
    { t with countdown := countdown, textContent := some text }

/-- The function `Auth.resendOtp()`. -/
def resendOtp (t : ResendTimer) : ResendTimer :=
  { t with resendCalls := t.resendCalls + 1,
           messages := t.messages ++ [(utf16 "OTP has been resent to your email", "success")] }

/-- The `click` listener of the resend link. -/
def onResendClick (cfg : Config) (t : ResendTimer) : ResendTimer :=
  if t.disabled then t
  else
    -- Handle resend
    let t := resendOtp t
    -- Restart timer
    { t with countdown := cfg.resendOtpDelay, disabled := true }

/-- What can happen to the resend timer: one second passes, or the link is clicked. -/
inductive TimerEvent where
  | second : TimerEvent
  | click : TimerEvent
  deriving DecidableEq, Repr

/-- One event: when a second passes the interval callback runs if the interval is still
installed. -/
def timerStep (cfg : Config) (t : ResendTimer) : TimerEvent → ResendTimer
  | TimerEvent.second => if t.intervalActive then onInterval t else t
  | TimerEvent.click => onResendClick cfg t

/-- The timer after a sequence of events. -/
def runTimer (cfg : Config) (events : List TimerEvent) (t : ResendTimer) : ResendTimer :=
  events.foldl (timerStep cfg) t
/-- The timer after an interval callback that leaves more than zero seconds. -/
def countedDown (t : ResendTimer) : ResendTimer :=
  { countdown := t.countdown - 1, disabled := t.disabled,
    textContent := some ("Resend in " ++ toString (t.countdown - 1) ++ "s"),
    intervalActive := t.intervalActive, resendCalls := t.resendCalls,
    messages := t.messages }

/-- The timer after the interval callback that reaches zero. -/
def expired (t : ResendTimer) : ResendTimer :=
  { countdown := 0, disabled := false, textContent := some "Resend OTP",
    intervalActive := false, resendCalls := t.resendCalls, messages := t.messages }

/-- The three shapes a reachable timer state can have: counting down (interval
installed, link disabled, at least one second left), expired (interval cleared, link
enabled, nothing left), or reset by a click (interval cleared, link disabled, the full
delay on the counter). -/
def TimerInv (cfg : Config) (t : ResendTimer) : Prop :=
  (t.intervalActive = true ∧ t.disabled = true ∧ 1 ≤ t.countdown) ∨
  (t.intervalActive = false ∧ t.disabled = false ∧ t.countdown = 0) ∨
  (t.intervalActive = false ∧ t.disabled = true ∧ t.countdown = cfg.resendOtpDelay)

/-! ## Regular expressions: the matcher decides the declarative meaning -/

namespace Regex

theorem not_matches_none (u : JSString) : ¬ Matches Regex.none u := by
  intro h; cases h

theorem matches_eps_iff (u : JSString) : Matches Regex.eps u ↔ u = [] := by
  constructor
  · intro h; cases h; rfl
  · rintro rfl; exact Matches.eps

theorem matches_cls_iff (p : Nat → Bool) (u : JSString) :
    Matches (Regex.cls p) u ↔ ∃ c, u = [c] ∧ p c = true := by
  constructor
  · intro h; cases h with
    | cls _ c hc => exact ⟨c, rfl, hc⟩
  · rintro ⟨c, rfl, hc⟩; exact Matches.cls p c hc

theorem matches_seq_iff (a b : Regex) (u : JSString) :
    Matches (Regex.seq a b) u ↔ ∃ s t, u = s ++ t ∧ Matches a s ∧ Matches b t := by
  constructor
  · intro h; cases h with
    | seq _ _ s t hs ht => exact ⟨s, t, rfl, hs, ht⟩
  · rintro ⟨s, t, rfl, hs, ht⟩; exact Matches.seq a b s t hs ht

theorem matches_alt_iff (a b : Regex) (u : JSString) :
    Matches (Regex.alt a b) u ↔ Matches a u ∨ Matches b u := by
  constructor
  · intro h; cases h with
    | altL _ _ _ h => exact Or.inl h
    | altR _ _ _ h => exact Or.inr h
  · rintro (h | h)
    · exact Matches.altL a b u h
    · exact Matches.altR a b u h

theorem star_cons_inv {r : Regex} {w : JSString} (h : Matches r w) :
    ∀ a c u, r = Regex.star a → w = c :: u →
      ∃ s t, u = s ++ t ∧ Matches a (c :: s) ∧ Matches (Regex.star a) t := by
  induction h with
  | eps => intro a c u hr; cases hr
  | cls p d hd => intro a c u hr; cases hr
  | seq x y s t _ _ _ _ => intro a c u hr; cases hr
  | altL x y s _ _ => intro a c u hr; cases hr
  | altR x y s _ _ => intro a c u hr; cases hr
  | starNil x => intro a c u _ hw; cases hw
  | starCons x s t hs ht _ iht =>
    intro a c u hr hw
    cases hr
    cases s with
    | nil => exact iht _ c u rfl (by simpa using hw)
    | cons d s' =>
      simp only [List.cons_append, List.cons.injEq] at hw
      obtain ⟨rfl, rfl⟩ := hw
      exact ⟨s', t, rfl, hs, ht⟩

theorem nullable_iff (r : Regex) : r.nullable = true ↔ Matches r [] := by
  induction r with
  | none => simp [nullable, not_matches_none]
  | eps => simp [nullable, matches_eps_iff]
  | cls p => simp [nullable, matches_cls_iff]
  | seq a b iha ihb =>
    simp only [nullable, Bool.and_eq_true, iha, ihb, matches_seq_iff]
    constructor
    · rintro ⟨ha, hb⟩; exact ⟨[], [], rfl, ha, hb⟩
    · rintro ⟨s, t, hst, hs, ht⟩
      obtain ⟨rfl, rfl⟩ := List.append_eq_nil.mp hst.symm
      exact ⟨hs, ht⟩
  | alt a b iha ihb => simp [nullable, iha, ihb, matches_alt_iff]
  | star a _ => simp only [nullable, true_iff]; exact Matches.starNil a

theorem deriv_iff (r : Regex) (c : Nat) (u : JSString) :
    Matches (r.deriv c) u ↔ Matches r (c :: u) := by
  induction r generalizing u with
  | none => simp [deriv, not_matches_none]
  | eps => simp [deriv, not_matches_none, matches_eps_iff]
  | cls p =>
    simp only [deriv, matches_cls_iff]
    by_cases hp : p c = true
    · simp only [hp, if_true, matches_eps_iff]
      constructor
      · rintro rfl; exact ⟨c, rfl, hp⟩
      · rintro ⟨d, hd, _⟩; simpa using (List.cons.inj hd).2
    · simp only [hp, if_false]
      constructor
      · intro h; exact absurd h (not_matches_none u)
      · rintro ⟨d, hd, hpd⟩
        obtain ⟨rfl, _⟩ := List.cons.inj hd
        exact absurd hpd hp
  | seq a b iha ihb =>
    have key : Matches (Regex.seq a b) (c :: u) ↔
        (∃ s t, u = s ++ t ∧ Matches a (c :: s) ∧ Matches b t) ∨
        (Matches a [] ∧ Matches b (c :: u)) := by
      rw [matches_seq_iff]
      constructor
      · rintro ⟨s, t, hst, hs, ht⟩
        cases s with
        | nil => right; simp only [List.nil_append] at hst; subst hst; exact ⟨hs, ht⟩
        | cons d s' =>
          simp only [List.cons_append, List.cons.injEq] at hst
          obtain ⟨rfl, rfl⟩ := hst
          exact Or.inl ⟨s', t, rfl, hs, ht⟩
      · rintro (⟨s, t, rfl, hs, ht⟩ | ⟨ha, hb⟩)
        · exact ⟨c :: s, t, rfl, hs, ht⟩
        · exact ⟨[], c :: u, rfl, ha, hb⟩
    rw [key]
    by_cases hn : a.nullable = true
    · have hma : Matches a [] := (nullable_iff a).mp hn
      simp only [deriv, hn, if_true, matches_alt_iff, matches_seq_iff, iha, ihb, hma, true_and]
    · have hna : ¬ Matches a [] := fun h => hn ((nullable_iff a).mpr h)
      simp only [deriv, if_neg hn, matches_seq_iff, iha, hna, false_and, or_false]
  | alt a b iha ihb => simp only [deriv, matches_alt_iff, iha, ihb]
  | star a iha =>
    simp only [deriv, matches_seq_iff, iha]
    constructor
    · rintro ⟨s, t, rfl, hs, ht⟩
      exact Matches.starCons a (c :: s) t hs ht
    · intro h
      exact star_cons_inv h a c u rfl rfl

/-- The derivative matcher decides the declarative meaning. -/
theorem test_iff (r : Regex) (u : JSString) : r.test u = true ↔ Matches r u := by
  induction u generalizing r with
  | nil => simpa [test] using nullable_iff r
  | cons c u ih => simp only [test, ih, deriv_iff]

theorem matches_star_cls_iff (p : Nat → Bool) (u : JSString) :
    Matches (Regex.star (Regex.cls p)) u ↔ ∀ c ∈ u, p c = true := by
  constructor
  · intro h
    generalize hr : Regex.star (Regex.cls p) = r at h
    induction h with
    | eps => simp
    | cls q d hd => cases hr
    | seq x y s t _ _ _ _ => cases hr
    | altL x y s _ _ => cases hr
    | altR x y s _ _ => cases hr
    | starNil x => simp
    | starCons x s t hs _ _ iht =>
      cases hr
      obtain ⟨d, rfl, hd⟩ := (matches_cls_iff p s).mp hs
      intro c hc
      simp only [List.singleton_append, List.mem_cons] at hc
      rcases hc with rfl | hc
      · exact hd
      · exact iht rfl c hc
  · intro h
    induction u with
    | nil => exact Matches.starNil _
    | cons c u ih =>
      have h1 : Matches (Regex.cls p) [c] := Matches.cls p c (h c (List.mem_cons_self c u))
      exact Matches.starCons _ [c] u h1 (ih (fun d hd => h d (List.mem_cons_of_mem c hd)))

theorem matches_plus_cls_iff (p : Nat → Bool) (u : JSString) :
    Matches (Regex.plus (Regex.cls p)) u ↔ u ≠ [] ∧ ∀ c ∈ u, p c = true := by
  simp only [plus, matches_seq_iff, matches_cls_iff, matches_star_cls_iff]
  constructor
  · rintro ⟨s, t, rfl, ⟨c, rfl, hc⟩, ht⟩
    refine ⟨by simp, ?_⟩
    intro d hd
    simp only [List.singleton_append, List.mem_cons] at hd
    rcases hd with rfl | hd
    · exact hc
    · exact ht d hd
  · rintro ⟨hne, h⟩
    cases u with
    | nil => exact absurd rfl hne
    | cons c u =>
      exact ⟨[c], u, rfl, ⟨c, rfl, h c (List.mem_cons_self c u)⟩,
        fun d hd => h d (List.mem_cons_of_mem c hd)⟩

end Regex

/-! ## Password strength -/

theorem ite_add_ind (b : Bool) (s : Nat) :
    (if b = true then s + 1 else s) = s + ind b := by
  cases b <;> simp [ind]

theorem ite_add_two_ind (b : Bool) (s : Nat) :
    (if b = true then s + 2 else s) = s + 2 * ind b := by
  cases b <;> simp [ind]

theorem ite_prop_add_ind (p : Prop) [Decidable p] (s : Nat) :
    (if p then s + 1 else s) = s + ind (decide p) := by
  by_cases hp : p <;> simp [ind, hp]

theorem score_eq_indicators (password : JSString) (h : password ≠ []) :
    (calculatePasswordStrength password).score =
      ind (decide (password.length ≥ 8)) + ind (decide (password.length ≥ 12))
        + ind (decide (password.length ≥ 16))
        + ind (testClass isLowerAZ password) + ind (testClass isUpperAZ password)
        + ind (testClass isDigit09 password) + 2 * ind (testClass isSpecial password) := by
  have hl : password.length ≠ 0 := by simpa using h
  simp only [calculatePasswordStrength, hl, if_false, ite_add_ind, ite_add_two_ind,
    ite_prop_add_ind, Bool.decide_eq_true]
  omega

/-- C1: for every non-empty password the score is the sum of the three length
indicators (>= 8, >= 12, >= 16), the indicators for a-z, A-Z and 0-9, and twice
the indicator of a character outside a-z, A-Z, 0-9. -/
theorem calculatePasswordStrength_score (password : JSString) (h : password ≠ []) :
    (calculatePasswordStrength password).score =
      ind (decide (password.length ≥ 8)) + ind (decide (password.length ≥ 12))
        + ind (decide (password.length ≥ 16))
        + ind (testClass isLowerAZ password) + ind (testClass isUpperAZ password)
        + ind (testClass isDigit09 password) + 2 * ind (testClass isSpecial password) :=
  score_eq_indicators password h

/-- Witness for C1 at the password `Str0ng!Pass`. -/
theorem calculatePasswordStrength_score_witness :
    utf16 "Str0ng!Pass" ≠ [] ∧
    (calculatePasswordStrength (utf16 "Str0ng!Pass")).score =
      ind (decide ((utf16 "Str0ng!Pass").length ≥ 8))
        + ind (decide ((utf16 "Str0ng!Pass").length ≥ 12))
        + ind (decide ((utf16 "Str0ng!Pass").length ≥ 16))
        + ind (testClass isLowerAZ (utf16 "Str0ng!Pass"))
        + ind (testClass isUpperAZ (utf16 "Str0ng!Pass"))
        + ind (testClass isDigit09 (utf16 "Str0ng!Pass"))
        + 2 * ind (testClass isSpecial (utf16 "Str0ng!Pass")) :=
  ⟨by decide, calculatePasswordStrength_score (utf16 "Str0ng!Pass") (by decide)⟩

theorem level_by_thresholds (password : JSString) :
    ((calculatePasswordStrength password).level = "none" ↔ password = []) ∧
    (password ≠ [] →
      (calculatePasswordStrength password).level =
        if (calculatePasswordStrength password).score ≥ 7 then "strong"
        else if (calculatePasswordStrength password).score ≥ 5 then "good"
        else if (calculatePasswordStrength password).score ≥ 3 then "fair"
        else "weak") := by
  by_cases h : password = []
  · subst h
    exact ⟨by decide, fun hne => absurd rfl hne⟩
  · have hl : password.length ≠ 0 := by simpa using h
    have key : (calculatePasswordStrength password).level =
        if (calculatePasswordStrength password).score ≥ 7 then "strong"
        else if (calculatePasswordStrength password).score ≥ 5 then "good"
        else if (calculatePasswordStrength password).score ≥ 3 then "fair"
        else "weak" := by
      simp only [calculatePasswordStrength, hl, if_false]
    refine ⟨⟨fun hnone => ?_, fun he => absurd he h⟩, fun _ => key⟩
    rw [key] at hnone
    split_ifs at hnone <;> exact absurd hnone (by decide)

/-- C2: the level is none exactly for the empty password; for a non-empty
password it is strong when score >= 7, else good when score >= 5, else fair when
score >= 3, else weak. -/
theorem calculatePasswordStrength_level (password : JSString) :
    ((calculatePasswordStrength password).level = "none" ↔ password = []) ∧
    (password ≠ [] →
      (calculatePasswordStrength password).level =
        if (calculatePasswordStrength password).score ≥ 7 then "strong"
        else if (calculatePasswordStrength password).score ≥ 5 then "good"
        else if (calculatePasswordStrength password).score ≥ 3 then "fair"
        else "weak") :=
  level_by_thresholds password

/-- Witness for C2 at the password `Str0ng!Pass` (score 6, level good). -/
theorem calculatePasswordStrength_level_witness :
    utf16 "Str0ng!Pass" ≠ [] ∧
    (calculatePasswordStrength (utf16 "Str0ng!Pass")).level =
        if (calculatePasswordStrength (utf16 "Str0ng!Pass")).score ≥ 7 then "strong"
        else if (calculatePasswordStrength (utf16 "Str0ng!Pass")).score ≥ 5 then "good"
        else if (calculatePasswordStrength (utf16 "Str0ng!Pass")).score ≥ 3 then "fair"
        else "weak" :=
  ⟨by decide, (calculatePasswordStrength_level (utf16 "Str0ng!Pass")).2 (by decide)⟩

/-- C3: the hint list is empty for the empty password, and otherwise is the
fixed sequence lowercase, uppercase, number, special with the hints of the met
criteria removed. -/
theorem calculatePasswordStrength_feedback (password : JSString) :
    (password = [] → (calculatePasswordStrength password).feedback = []) ∧
    (password ≠ [] →
      (calculatePasswordStrength password).feedback =
        ((hintTable password).filter (fun p => !p.1)).map Prod.snd) := by
  constructor
  · rintro rfl
    rfl
  · intro h
    have hl : password.length ≠ 0 := by simpa using h
    simp only [calculatePasswordStrength, hl, if_false, hintTable]
    cases testClass isLowerAZ password <;> cases testClass isUpperAZ password <;>
      cases testClass isDigit09 password <;> cases testClass isSpecial password <;> rfl

/-- Witness for C3 at the empty password and at `abc`. -/
theorem calculatePasswordStrength_feedback_witness :
    (calculatePasswordStrength []).feedback = [] ∧
    (calculatePasswordStrength (utf16 "abc")).feedback =
      (((hintTable (utf16 "abc"))).filter (fun p => !p.1)).map Prod.snd :=
  ⟨(calculatePasswordStrength_feedback []).1 rfl,
   (calculatePasswordStrength_feedback (utf16 "abc")).2 (by decide)⟩

/-- C4: the score never exceeds 8, and a password of length >= 16 containing a
character of each of the four classes a-z, A-Z, 0-9 and other scores exactly 8
with level strong. -/
theorem calculatePasswordStrength_max (password : JSString) :
    (calculatePasswordStrength password).score ≤ 8 ∧
    (password.length ≥ 16 → testClass isLowerAZ password = true →
      testClass isUpperAZ password = true → testClass isDigit09 password = true →
      testClass isSpecial password = true →
      (calculatePasswordStrength password).score = 8 ∧
      (calculatePasswordStrength password).level = "strong") := by
  by_cases h : password = []
  · subst h
    exact ⟨by decide, fun hlen => absurd hlen (by decide)⟩
  · have hs := score_eq_indicators password h
    have hlv := (level_by_thresholds password).2 h
    have hb : ∀ b : Bool, ind b ≤ 1 := fun b => by cases b <;> simp [ind]
    refine ⟨?_, fun hlen h1 h2 h3 h4 => ?_⟩
    · have := hb (decide (password.length ≥ 8))
      have := hb (decide (password.length ≥ 12))
      have := hb (decide (password.length ≥ 16))
      have := hb (testClass isLowerAZ password)
      have := hb (testClass isUpperAZ password)
      have := hb (testClass isDigit09 password)
      have := hb (testClass isSpecial password)
      omega
    · have e8 : decide (password.length ≥ 8) = true := by simp; omega
      have e12 : decide (password.length ≥ 12) = true := by simp; omega
      have e16 : decide (password.length ≥ 16) = true := by simp; omega
      rw [e8, e12, e16, h1, h2, h3, h4] at hs
      have hs8 : (calculatePasswordStrength password).score = 8 := by
        rw [hs]; rfl
      refine ⟨hs8, ?_⟩
      rw [hlv, hs8]
      rfl

/-- Witness for C4 at the 16-character password `Abcdefghijklmn1!`. -/
theorem calculatePasswordStrength_max_witness :
    (utf16 "Abcdefghijklmn1!").length ≥ 16 ∧
    (calculatePasswordStrength (utf16 "Abcdefghijklmn1!")).score = 8 ∧
    (calculatePasswordStrength (utf16 "Abcdefghijklmn1!")).level = "strong" :=
  ⟨by decide, (calculatePasswordStrength_max (utf16 "Abcdefghijklmn1!")).2
    (by decide) (by decide) (by decide) (by decide) (by decide)⟩

/-! ## Field validation -/

theorem isNotSpaceAt_iff (c : Nat) :
    isNotSpaceAt c = true ↔ isWhiteSpace c = false ∧ c ≠ 64 := by
  simp [isNotSpaceAt]

theorem matches_emailRegex_iff (v : JSString) :
    Regex.Matches emailRegex v ↔
      ∃ l d t, v = l ++ 64 :: (d ++ 46 :: t) ∧ l ≠ [] ∧ d ≠ [] ∧ t ≠ [] ∧
        (∀ c ∈ l, isNotSpaceAt c = true) ∧ (∀ c ∈ d, isNotSpaceAt c = true) ∧
        (∀ c ∈ t, isNotSpaceAt c = true) := by
  simp only [emailRegex, Regex.matches_seq_iff, Regex.matches_plus_cls_iff,
    Regex.matches_cls_iff, beq_iff_eq]
  constructor
  · rintro ⟨l, _, rfl, ⟨hl, hla⟩, _, _, rfl, ⟨_, rfl, rfl⟩, d, _, rfl, ⟨hd, hda⟩,
      _, t, rfl, ⟨_, rfl, rfl⟩, ht, hta⟩
    exact ⟨l, d, t, by simp, hl, hd, ht, hla, hda, hta⟩
  · rintro ⟨l, d, t, rfl, hl, hd, ht, hla, hda, hta⟩
    exact ⟨l, _, rfl, ⟨hl, hla⟩, [64], _, rfl, ⟨64, rfl, rfl⟩, d, _, rfl, ⟨hd, hda⟩,
      [46], t, rfl, ⟨46, rfl, rfl⟩, ht, hta⟩

theorem emailRegex_test_iff (v : JSString) : emailRegex.test v = true ↔ EmailShape v := by
  rw [Regex.test_iff, matches_emailRegex_iff]
  constructor
  · rintro ⟨l, d, t, rfl, hl, hd, ht, hla, hda, hta⟩
    have nl : (64 : Nat) ∉ l := fun h => ((isNotSpaceAt_iff 64).mp (hla 64 h)).2 rfl
    have nd : (64 : Nat) ∉ d := fun h => ((isNotSpaceAt_iff 64).mp (hda 64 h)).2 rfl
    have nt : (64 : Nat) ∉ t := fun h => ((isNotSpaceAt_iff 64).mp (hta 64 h)).2 rfl
    refine ⟨?_, ?_, l, d ++ 46 :: t, rfl, hl, d, t, rfl, hd, ht⟩
    · intro c hc
      simp only [List.mem_append, List.mem_cons] at hc
      rcases hc with h | rfl | h | rfl | h
      · exact ((isNotSpaceAt_iff c).mp (hla c h)).1
      · decide
      · exact ((isNotSpaceAt_iff c).mp (hda c h)).1
      · decide
      · exact ((isNotSpaceAt_iff c).mp (hta c h)).1
    · simp [List.count_append, List.count_cons, List.count_eq_zero.mpr nl,
        List.count_eq_zero.mpr nd, List.count_eq_zero.mpr nt]
  · rintro ⟨hws, hcount, l, _, rfl, hl, d, t, rfl, hd, ht⟩
    simp only [List.count_append, List.count_cons, beq_self_eq_true, if_true] at hcount
    have nl : (64 : Nat) ∉ l := List.count_eq_zero.mp (by omega)
    have nd : (64 : Nat) ∉ d := List.count_eq_zero.mp (by omega)
    have nt : (64 : Nat) ∉ t := List.count_eq_zero.mp (by omega)
    refine ⟨l, d, t, rfl, hl, hd, ht, ?_, ?_, ?_⟩
    · intro c hc
      exact (isNotSpaceAt_iff c).mpr ⟨hws c (by simp [hc]), fun h => nl (h ▸ hc)⟩
    · intro c hc
      exact (isNotSpaceAt_iff c).mpr ⟨hws c (by simp [hc]), fun h => nd (h ▸ hc)⟩
    · intro c hc
      exact (isNotSpaceAt_iff c).mpr ⟨hws c (by simp [hc]), fun h => nt (h ▸ hc)⟩

theorem validateField_eq (cfg : Config) (doc : Document) (i : Nat) (input : Input)
    (hi : doc.inputs[i]? = some input) :
    validateField cfg doc i =
      ({ inputs := doc.inputs.set i { input with classList := markedClassList input (validateFieldRules cfg doc input).1 },
         feedback :=
            if !(validateFieldRules cfg doc input).1 && (validateFieldRules cfg doc input).2 ≠ ""
            then clearedFeedback doc input ++ [(input.parent, (validateFieldRules cfg doc input).2)]
            else clearedFeedback doc input },
       (validateFieldRules cfg doc input).1) := by
  simp only [validateField, hi, markedClassList, clearedClassList, clearedFeedback]

/-- C5: a required field whose trimmed value is empty is reported invalid with the
message This field is required, whatever its type or name; the message is appended
to the parent element and no validity marker is added. -/
theorem validateField_required_empty (cfg : Config) (doc : Document) (i : Nat)
    (input : Input) (hi : doc.inputs[i]? = some input) (hreq : input.required = true)
    (hv : trim input.value = []) :
    (validateField cfg doc i).2 = false ∧
    validateFieldRules cfg doc input = (false, "This field is required") ∧
    (validateField cfg doc i).1.feedback =
      clearedFeedback doc input ++ [(input.parent, "This field is required")] ∧
    (validateField cfg doc i).1.inputs =
      doc.inputs.set i { input with classList := clearedClassList input } := by
  have hr : validateFieldRules cfg doc input = (false, "This field is required") := by
    simp [validateFieldRules, hreq, hv]
  rw [validateField_eq cfg doc i input hi, hr]
  simp [hv, markedClassList]

theorem find_password_data (d1 d2 : Document) (hd : d1.data = d2.data) :
    (d1.inputs.find? (fun inp => inp.name == "password")).map Input.value =
    (d2.inputs.find? (fun inp => inp.name == "password")).map Input.value := by
  have key : ∀ d : Document,
      (d.inputs.find? (fun inp => inp.name == "password")).map Input.value =
      (d.data.find? (fun inp => inp.name == "password")).map Input.value := by
    intro d
    simp only [Document.data, List.find?_map, Option.map_map]
    rfl
  rw [key d1, key d2, hd]

theorem validateFieldRules_congr (cfg : Config) (d1 d2 : Document) (a b : Input)
    (hd : d1.data = d2.data) (hab : a.data = b.data) :
    validateFieldRules cfg d1 a = validateFieldRules cfg d2 b := by
  have hp := find_password_data d1 d2 hd
  have hv : a.value = b.value := by simpa [Input.data] using congrArg Input.value hab
  have ht : a.type = b.type := by simpa [Input.data] using congrArg Input.type hab
  have hn : a.name = b.name := by simpa [Input.data] using congrArg Input.name hab
  have hr : a.required = b.required := by simpa [Input.data] using congrArg Input.required hab
  simp only [validateFieldRules, hv, ht, hn, hr]
  cases h1 : d1.inputs.find? (fun inp => inp.name == "password") <;>
    cases h2 : d2.inputs.find? (fun inp => inp.name == "password") <;>
    simp_all

theorem validateField_data (cfg : Config) (doc : Document) (i : Nat) :
    (validateField cfg doc i).1.data = doc.data := by
  cases hi : doc.inputs[i]? with
  | none => simp [validateField, hi]
  | some input =>
    rw [validateField_eq cfg doc i input hi]
    simp only [Document.data, List.map_set]
    apply List.ext_getElem?
    intro j
    simp only [List.getElem?_set, List.getElem?_map, List.length_map]
    split_ifs with h1 h2
    · subst h1; simp [hi, Input.data]
    · subst h1
      have := List.getElem?_eq_none (Nat.le_of_not_lt h2)
      simp_all
    · rfl

theorem validateField_snd_congr (cfg : Config) (d1 d2 : Document) (i : Nat)
    (hd : d1.data = d2.data) : (validateField cfg d1 i).2 = (validateField cfg d2 i).2 := by
  have hget : (d1.inputs[i]?).map Input.data = (d2.inputs[i]?).map Input.data := by
    have := congrArg (fun l => l[i]?) hd
    simpa [Document.data] using this
  cases h1 : d1.inputs[i]? with
  | none =>
    cases h2 : d2.inputs[i]? with
    | none => simp [validateField, h1, h2]
    | some b => rw [h1, h2] at hget; simp at hget
  | some a =>
    cases h2 : d2.inputs[i]? with
    | none => rw [h1, h2] at hget; simp at hget
    | some b =>
      rw [h1, h2] at hget
      simp only [Option.map_some', Option.some.injEq] at hget
      rw [validateField_eq cfg d1 i a h1, validateField_eq cfg d2 i b h2]
      exact congrArg Prod.fst (validateFieldRules_congr cfg d1 d2 a b hd hget)

theorem validateFieldRules_message (cfg : Config) (doc : Document) (input : Input)
    (h : (validateFieldRules cfg doc input).1 = false) :
    (validateFieldRules cfg doc input).2 ≠ "" := by
  have hpw : "Password must be at least " ++ toString cfg.minPasswordLength ++ " characters"
      ≠ "" := by
    intro he
    have := congrArg String.length he
    simp only [String.length_append] at this
    have h26 : "Password must be at least ".length = 26 := by decide
    have h0 : "".length = 0 := by decide
    omega
  revert h
  simp only [validateFieldRules]
  split_ifs
  all_goals try simp
  · exact hpw
  · cases doc.inputs.find? (fun inp => inp.name == "password") with
    | none => simp
    | some password =>
      simp only
      split_ifs <;> simp

theorem foldl_stepField_data (cfg : Config) (doc : Document) (l : List Nat) :
    (l.foldl (stepField cfg) doc).data = doc.data := by
  induction l generalizing doc with
  | nil => rfl
  | cons i l ih =>
    simp only [List.foldl_cons]
    rw [ih, stepField, validateField_data]

theorem validateForm_loop (cfg : Config) (doc : Document) (l : List Nat) (d : Document)
    (b : Bool) (hd : d.data = doc.data) :
    l.foldl (fun (state : Document × Bool) i =>
        ((validateField cfg state.1 i).1,
          if !(validateField cfg state.1 i).2 then false else state.2)) (d, b) =
      (l.foldl (stepField cfg) d, b && l.all (fun i => (validateField cfg doc i).2)) := by
  induction l generalizing d b with
  | nil => simp
  | cons i l ih =>
    simp only [List.foldl_cons, List.all_cons]
    rw [ih _ _ (by rw [validateField_data, hd]), validateField_snd_congr cfg d doc i hd]
    cases (validateField cfg doc i).2 <;> cases b <;> simp [stepField]

/-- Witness for C5: a required email field holding only spaces. -/
theorem validateField_required_empty_witness :
    (sampleDoc [mkInput "   " "email" "email" true 0]).inputs[0]?
      = some (mkInput "   " "email" "email" true 0) ∧
    (mkInput "   " "email" "email" true 0).required = true ∧
    trim (mkInput "   " "email" "email" true 0).value = [] ∧
    (validateField config (sampleDoc [mkInput "   " "email" "email" true 0]) 0).2 = false ∧
    (validateField config (sampleDoc [mkInput "   " "email" "email" true 0]) 0).1.feedback =
      [(0, "This field is required")] :=
  have h := validateField_required_empty config (sampleDoc [mkInput "   " "email" "email" true 0])
    0 (mkInput "   " "email" "email" true 0) (by decide) (by decide) (by decide)
  ⟨by decide, by decide, by decide, h.1, h.2.2.1⟩

/-- C6 as stated fails.  Two required fields that both hold two spaces are reported
with This field is required; two fields that both hold ` abc12345` are reported as
not matching; and a confirm field holding `abc12345 ` is reported valid against the
different password value `abc12345`. -/
theorem validateField_confirm_counterexample :
    (mkInput "  " "password" "confirmPassword" true 1).value
      = (mkInput "  " "password" "password" true 0).value ∧
    (mkInput "  " "password" "confirmPassword" true 1).value ≠ [] ∧
    (validateField config (sampleDoc [mkInput "  " "password" "password" true 0,
      mkInput "  " "password" "confirmPassword" true 1]) 1).2 = false ∧
    (validateField config (sampleDoc [mkInput "  " "password" "password" true 0,
      mkInput "  " "password" "confirmPassword" true 1]) 1).1.feedback
      = [(1, "This field is required")] ∧
    (mkInput " abc12345" "password" "confirmPassword" true 1).value
      = (mkInput " abc12345" "password" "password" true 0).value ∧
    (validateField config (sampleDoc [mkInput " abc12345" "password" "password" true 0,
      mkInput " abc12345" "password" "confirmPassword" true 1]) 1).2 = false ∧
    (validateField config (sampleDoc [mkInput " abc12345" "password" "password" true 0,
      mkInput " abc12345" "password" "confirmPassword" true 1]) 1).1.feedback
      = [(1, "Passwords do not match")] ∧
    (mkInput "abc12345 " "password" "confirmPassword" true 1).value
      ≠ (mkInput "abc12345" "password" "password" true 0).value ∧
    (validateField config (sampleDoc [mkInput "abc12345" "password" "password" true 0,
      mkInput "abc12345 " "password" "confirmPassword" true 1]) 1).2 = true := by
  decide

/-- C6 (amended): a confirm-password field whose value is non-empty and carries no
leading or trailing whitespace is reported invalid with Passwords do not match exactly
when its value differs from the value the primary password field holds at the time of
the call; when the two values are equal it is reported valid. -/
theorem validateField_confirm (cfg : Config) (doc : Document) (i : Nat)
    (input password : Input) (hi : doc.inputs[i]? = some input)
    (hn : input.name = "confirmPassword") (ht : input.type ≠ "email")
    (hv : input.value ≠ []) (htrim : trim input.value = input.value)
    (hpw : doc.inputs.find? (fun inp => inp.name == "password") = some password) :
    ((validateField cfg doc i).2 = false ↔ input.value ≠ password.value) ∧
    (input.value ≠ password.value →
      (validateField cfg doc i).1.feedback =
        clearedFeedback doc input ++ [(input.parent, "Passwords do not match")]) ∧
    (input.value = password.value →
      (validateField cfg doc i).2 = true ∧
      (validateField cfg doc i).1.feedback = clearedFeedback doc input) := by
  have hr : validateFieldRules cfg doc input =
      if input.value ≠ password.value then (false, "Passwords do not match")
      else (true, "") := by
    simp [validateFieldRules, hn, ht, hv, htrim, hpw]
  rw [validateField_eq cfg doc i input hi, hr]
  by_cases he : input.value = password.value
  · simp [he]
  · simp [he]

/-- Witness for C6 (amended): the confirm value `abc12345` against the password values
`abc12345` (held by the document) is accepted. -/
theorem validateField_confirm_witness :
    (sampleDoc [mkInput "abc12345" "password" "password" true 0,
      mkInput "abc12345" "password" "confirmPassword" true 1]).inputs[1]?
      = some (mkInput "abc12345" "password" "confirmPassword" true 1) ∧
    trim (mkInput "abc12345" "password" "confirmPassword" true 1).value
      = (mkInput "abc12345" "password" "confirmPassword" true 1).value ∧
    (validateField config (sampleDoc [mkInput "abc12345" "password" "password" true 0,
      mkInput "abc12345" "password" "confirmPassword" true 1]) 1).2 = true :=
  have h := validateField_confirm config (sampleDoc [mkInput "abc12345" "password" "password" true 0,
      mkInput "abc12345" "password" "confirmPassword" true 1]) 1
    (mkInput "abc12345" "password" "confirmPassword" true 1)
    (mkInput "abc12345" "password" "password" true 0)
    (by decide) (by decide) (by decide) (by decide) (by decide) (by decide)
  ⟨by decide, by decide, (h.2.2 (by decide)).1⟩

/-- An empty field that is not required and is not named confirmPassword is left
unchecked: the call returns true, adds no message and adds no validity marker. -/
theorem validateField_optional_empty_other (cfg : Config) (doc : Document) (i : Nat)
    (input : Input) (hi : doc.inputs[i]? = some input) (hreq : input.required = false)
    (hv : input.value = []) (hn : input.name ≠ "confirmPassword") :
    (validateField cfg doc i).2 = true ∧
    (validateField cfg doc i).1.feedback = clearedFeedback doc input ∧
    (validateField cfg doc i).1.inputs =
      doc.inputs.set i { input with classList := clearedClassList input } := by
  have htr : trim input.value = [] := by rw [hv]; rfl
  have hr : validateFieldRules cfg doc input = (true, "") := by
    simp [validateFieldRules, hreq, htr, hn]
  rw [validateField_eq cfg doc i input hi, hr]
  simp [htr, markedClassList]

/-- C7 (code at the failing input): an empty, not required confirmPassword field
next to a non-empty password field is reported invalid and gets the message
Passwords do not match, although no validity marker is added. -/
theorem validateField_optional_empty_confirm :
    (mkInput "" "password" "confirmPassword" false 1).required = false ∧
    (mkInput "" "password" "confirmPassword" false 1).value = [] ∧
    (validateField config (sampleDoc [mkInput "abc12345" "password" "password" true 0,
      mkInput "" "password" "confirmPassword" false 1]) 1).2 = false ∧
    (validateField config (sampleDoc [mkInput "abc12345" "password" "password" true 0,
      mkInput "" "password" "confirmPassword" false 1]) 1).1.feedback
      = [(1, "Passwords do not match")] ∧
    (validateField config (sampleDoc [mkInput "abc12345" "password" "password" true 0,
      mkInput "" "password" "confirmPassword" false 1]) 1).1.inputs[1]?
      = some (mkInput "" "password" "confirmPassword" false 1) := by
  decide

/-- C8: an email-type field with a non-empty trimmed value is reported valid exactly
when the trimmed value has the shape local@domain.tld; otherwise it is invalid with
the message Please enter a valid email address. -/
theorem validateField_email (cfg : Config) (doc : Document) (i : Nat) (input : Input)
    (hi : doc.inputs[i]? = some input) (ht : input.type = "email")
    (hv : trim input.value ≠ []) :
    ((validateField cfg doc i).2 = true ↔ EmailShape (trim input.value)) ∧
    (EmailShape (trim input.value) →
      validateFieldRules cfg doc input = (true, "") ∧
      (validateField cfg doc i).1.feedback = clearedFeedback doc input) ∧
    (¬ EmailShape (trim input.value) →
      validateFieldRules cfg doc input = (false, "Please enter a valid email address") ∧
      (validateField cfg doc i).1.feedback =
        clearedFeedback doc input ++ [(input.parent, "Please enter a valid email address")]) := by
  have hr : validateFieldRules cfg doc input =
      if emailRegex.test (trim input.value) then (true, "")
      else (false, "Please enter a valid email address") := by
    simp [validateFieldRules, ht, hv]
    cases emailRegex.test (trim input.value) <;> rfl
  rw [validateField_eq cfg doc i input hi, hr]
  by_cases hs : EmailShape (trim input.value)
  · have ht := (emailRegex_test_iff _).mpr hs
    simp [ht, hs]
  · have ht : emailRegex.test (trim input.value) = false := by
      cases h : emailRegex.test (trim input.value)
      · rfl
      · exact absurd ((emailRegex_test_iff _).mp h) hs
    simp [ht, hs]

/-- Witness for C8: the field value ` a@b.com ` is trimmed to `a@b.com` and accepted. -/
theorem validateField_email_witness :
    (sampleDoc [mkInput " a@b.com " "email" "email" true 0]).inputs[0]?
      = some (mkInput " a@b.com " "email" "email" true 0) ∧
    (mkInput " a@b.com " "email" "email" true 0).type = "email" ∧
    trim (mkInput " a@b.com " "email" "email" true 0).value ≠ [] ∧
    (validateField config (sampleDoc [mkInput " a@b.com " "email" "email" true 0]) 0).2 = true ∧
    EmailShape (trim (mkInput " a@b.com " "email" "email" true 0).value) :=
  have h := validateField_email config (sampleDoc [mkInput " a@b.com " "email" "email" true 0])
    0 (mkInput " a@b.com " "email" "email" true 0) (by decide) (by decide) (by decide)
  ⟨by decide, by decide, by decide, by decide, h.1.mp (by decide)⟩

/-- C9 as stated fails: the primary password field holding `abcdefg ` has a value
of 8 code units, not shorter than the minimum 8, and is reported invalid. -/
theorem validateField_password_untrimmed_counterexample :
    (mkInput "abcdefg " "password" "password" false 0).type = "password" ∧
    (mkInput "abcdefg " "password" "password" false 0).name = "password" ∧
    (mkInput "abcdefg " "password" "password" false 0).value ≠ [] ∧
    ¬ ((validateField config (sampleDoc [mkInput "abcdefg " "password" "password" false 0]) 0).2
          = false ↔
        (mkInput "abcdefg " "password" "password" false 0).value.length
          < config.minPasswordLength) := by
  decide

/-- C9 (amended): the primary password field with a non-empty trimmed value is
reported invalid exactly when the trimmed value is shorter than the configured
minimum (8 by default); the message is then Password must be at least N characters
with N the configured minimum, and a trimmed value of at least N code units is
reported valid. -/
theorem validateField_password (cfg : Config) (doc : Document) (i : Nat) (input : Input)
    (hi : doc.inputs[i]? = some input) (ht : input.type = "password")
    (hn : input.name = "password") (hv : trim input.value ≠ []) :
    config.minPasswordLength = 8 ∧
    ((validateField cfg doc i).2 = false ↔
      (trim input.value).length < cfg.minPasswordLength) ∧
    ((trim input.value).length < cfg.minPasswordLength →
      (validateField cfg doc i).1.feedback = clearedFeedback doc input ++
        [(input.parent,
          "Password must be at least " ++ toString cfg.minPasswordLength ++ " characters")]) ∧
    (cfg.minPasswordLength ≤ (trim input.value).length →
      (validateField cfg doc i).2 = true ∧
      (validateField cfg doc i).1.feedback = clearedFeedback doc input) := by
  have hr : validateFieldRules cfg doc input =
      if (trim input.value).length < cfg.minPasswordLength then
        (false, "Password must be at least " ++ toString cfg.minPasswordLength ++ " characters")
      else (true, "") := by
    simp [validateFieldRules, ht, hn, hv]
  have hm := validateFieldRules_message cfg doc input
  rw [validateField_eq cfg doc i input hi]
  rw [hr] at hm ⊢
  refine ⟨rfl, ?_, ?_, ?_⟩
  · by_cases hl : (trim input.value).length < cfg.minPasswordLength <;> simp [hl]
  · intro hl
    simp only [hl, if_true] at hm ⊢
    simp [hm trivial]
  · intro hl
    have hl2 : ¬ (trim input.value).length < cfg.minPasswordLength := by omega
    simp [hl2]

/-- Witness for C9 (amended): the value `abc ` is trimmed to 3 code units and
rejected with the message for the default minimum 8. -/
theorem validateField_password_witness :
    (sampleDoc [mkInput "abc " "password" "password" true 0]).inputs[0]?
      = some (mkInput "abc " "password" "password" true 0) ∧
    trim (mkInput "abc " "password" "password" true 0).value ≠ [] ∧
    (trim (mkInput "abc " "password" "password" true 0).value).length
      < config.minPasswordLength ∧
    (validateField config (sampleDoc [mkInput "abc " "password" "password" true 0]) 0).2
      = false ∧
    (validateField config (sampleDoc [mkInput "abc " "password" "password" true 0]) 0).1.feedback
      = [(0, "Password must be at least " ++ toString 8 ++ " characters")] :=
  have h := validateField_password config (sampleDoc [mkInput "abc " "password" "password" true 0])
    0 (mkInput "abc " "password" "password" true 0) (by decide) (by decide) (by decide)
    (by decide)
  ⟨by decide, by decide, by decide, h.2.1.mpr (by decide), h.2.2.1 (by decide)⟩

/-! ## Form validation -/

theorem mem_selectInputs (doc : Document) (form : List Nat) (i : Nat) :
    i ∈ selectInputs doc form ↔
      i ∈ form ∧ ∃ input, doc.inputs[i]? = some input ∧
        (input.required = true ∨ input.dataValidate = true) := by
  simp only [selectInputs, List.mem_filter]
  cases h : doc.inputs[i]? with
  | none => simp
  | some input => simp

theorem validateForm_eq (cfg : Config) (doc : Document) (form : List Nat) :
    validateForm cfg doc form =
      ((selectInputs doc form).foldl (stepField cfg) doc,
        (selectInputs doc form).all (fun i => (validateField cfg doc i).2)) := by
  simp only [validateForm]
  rw [validateForm_loop cfg doc (selectInputs doc form) doc true rfl]
  simp

theorem validateField_feedback_at (cfg : Config) (doc d : Document) (i : Nat) (input : Input)
    (hd : d.data = doc.data) (hi : doc.inputs[i]? = some input)
    (hfail : (validateField cfg doc i).2 = false) :
    (validateField cfg d i).1.feedback =
      clearedFeedback d input ++ [(input.parent, (validateFieldRules cfg doc input).2)] := by
  have hget : (d.inputs[i]?).map Input.data = (doc.inputs[i]?).map Input.data := by
    have := congrArg (fun l => l[i]?) hd
    simpa [Document.data] using this
  rw [validateField_eq cfg doc i input hi] at hfail
  simp only at hfail
  cases h1 : d.inputs[i]? with
  | none => rw [h1, hi] at hget; simp at hget
  | some a =>
    rw [h1, hi] at hget
    simp only [Option.map_some', Option.some.injEq] at hget
    have hrules := validateFieldRules_congr cfg d doc a input hd hget
    have hpar : a.parent = input.parent := by
      simpa [Input.data] using congrArg Input.parent hget
    have hm := validateFieldRules_message cfg doc input hfail
    rw [validateField_eq cfg d i a h1, hrules]
    simp [hfail, hm, clearedFeedback, hpar]

theorem validateForm_visit (cfg : Config) (doc : Document) (form : List Nat)
    (pre : List Nat) (i : Nat) (post : List Nat) (input : Input)
    (hsel : selectInputs doc form = pre ++ i :: post)
    (hi : doc.inputs[i]? = some input) (hfail : (validateField cfg doc i).2 = false) :
    (validateField cfg (pre.foldl (stepField cfg) doc) i).1.feedback =
      clearedFeedback (pre.foldl (stepField cfg) doc) input
        ++ [(input.parent, (validateFieldRules cfg doc input).2)] ∧
    (validateForm cfg doc form).1 =
      post.foldl (stepField cfg) (validateField cfg (pre.foldl (stepField cfg) doc) i).1 := by
  rw [validateForm_eq]
  refine ⟨validateField_feedback_at cfg doc _ i input
    (foldl_stepField_data cfg doc pre) hi hfail, ?_⟩
  simp only [hsel, List.foldl_append, List.foldl_cons, stepField]

theorem filter_eraseP_of_ne (l : List (Nat × String)) (p q : Nat) (h : q ≠ p) :
    (l.eraseP (fun f => f.1 == q)).filter (fun f => f.1 == p) =
      l.filter (fun f => f.1 == p) := by
  induction l with
  | nil => rfl
  | cons x l ih =>
    by_cases hx : x.1 = q
    · have hxp : ¬ x.1 = p := fun hp => h (hx ▸ hp)
      simp [List.eraseP_cons, hx, List.filter_cons, h]
    · simp [List.eraseP_cons, hx, List.filter_cons, ih]

theorem validateField_filter_other (cfg : Config) (d : Document) (j p : Nat)
    (h : ∀ inp, d.inputs[j]? = some inp → inp.parent ≠ p) :
    (validateField cfg d j).1.feedback.filter (fun f => f.1 == p) =
      d.feedback.filter (fun f => f.1 == p) := by
  cases hj : d.inputs[j]? with
  | none => simp [validateField, hj]
  | some inp =>
    have hne := h inp hj
    rw [validateField_eq cfg d j inp hj]
    simp only [clearedFeedback]
    split_ifs
    · simp [List.filter_append, filter_eraseP_of_ne _ _ _ hne, hne]
    · exact filter_eraseP_of_ne _ _ _ hne

/-- After validateForm, a failing input still has its own message as the last
feedback element of its parent element, provided no input validated after it has the
same parent element. -/
theorem validateForm_keeps_message (cfg : Config) (doc : Document) (form : List Nat)
    (pre : List Nat) (i : Nat) (post : List Nat) (input : Input)
    (hsel : selectInputs doc form = pre ++ i :: post)
    (hi : doc.inputs[i]? = some input) (hfail : (validateField cfg doc i).2 = false)
    (hpar : ∀ j ∈ post, ∀ inp, doc.inputs[j]? = some inp → inp.parent ≠ input.parent) :
    ((validateForm cfg doc form).1.feedback.filter
        (fun f => f.1 == input.parent)).getLast? =
      some (input.parent, (validateFieldRules cfg doc input).2) := by
  obtain ⟨hfb, hfin⟩ := validateForm_visit cfg doc form pre i post input hsel hi hfail
  rw [hfin]
  have hd0 : (validateField cfg (pre.foldl (stepField cfg) doc) i).1.data = doc.data := by
    rw [validateField_data, foldl_stepField_data]
  have key : ∀ (l : List Nat) (d : Document), d.data = doc.data →
      (∀ j ∈ l, ∀ inp, doc.inputs[j]? = some inp → inp.parent ≠ input.parent) →
      (l.foldl (stepField cfg) d).feedback.filter (fun f => f.1 == input.parent) =
        d.feedback.filter (fun f => f.1 == input.parent) := by
    intro l
    induction l with
    | nil => intro d _ _; rfl
    | cons j l ih =>
      intro d hd hl
      simp only [List.foldl_cons]
      rw [ih _ (by rw [stepField, validateField_data, hd])
        (fun k hk => hl k (List.mem_cons_of_mem j hk))]
      apply validateField_filter_other
      intro inp hinp
      have hget : (d.inputs[j]?).map Input.data = (doc.inputs[j]?).map Input.data := by
        have := congrArg (fun l => l[j]?) hd
        simpa [Document.data] using this
      cases hdj : doc.inputs[j]? with
      | none => rw [hinp, hdj] at hget; simp at hget
      | some inp0 =>
        rw [hinp, hdj] at hget
        simp only [Option.map_some', Option.some.injEq] at hget
        have hp : inp.parent = inp0.parent := by
          simpa [Input.data] using congrArg Input.parent hget
        rw [hp]
        exact hl j (List.mem_cons_self j l) inp0 hdj
  rw [key post _ hd0 hpar, hfb]
  simp [List.filter_append]

/-- C10 as stated fails: a malformed email field and an empty required field share one
parent element; both fail, validateForm returns false, but the visit of the second
field removes the message of the first, which is missing when validateForm returns. -/
theorem validateForm_shared_parent_counterexample :
    (validateField config (sampleDoc [mkInput "x" "email" "email" true 0,
      mkInput "" "text" "fullName" true 0]) 0).2 = false ∧
    (validateField config (sampleDoc [mkInput "x" "email" "email" true 0,
      mkInput "" "text" "fullName" true 0]) 0).1.feedback
      = [(0, "Please enter a valid email address")] ∧
    (validateField config (sampleDoc [mkInput "x" "email" "email" true 0,
      mkInput "" "text" "fullName" true 0]) 1).2 = false ∧
    (validateForm config (sampleDoc [mkInput "x" "email" "email" true 0,
      mkInput "" "text" "fullName" true 0]) [0, 1]).2 = false ∧
    (validateForm config (sampleDoc [mkInput "x" "email" "email" true 0,
      mkInput "" "text" "fullName" true 0]) [0, 1]).1.feedback
      = [(0, "This field is required")] ∧
    (0, "Please enter a valid email address") ∉
      (validateForm config (sampleDoc [mkInput "x" "email" "email" true 0,
        mkInput "" "text" "fullName" true 0]) [0, 1]).1.feedback := by
  decide

/-- C10 (amended): validateForm returns true exactly when validateField returns true
for every input of the form that is required or carries data-validate; every such
input is evaluated in turn whether or not an earlier one failed, the evaluation of
each failing input appends the message of that input to its parent element, and that
message is still the last one of its parent element when validateForm returns
provided no input validated after it has the same parent element. -/
theorem validateForm_spec (cfg : Config) (doc : Document) (form : List Nat) :
    ((validateForm cfg doc form).2 = true ↔
      ∀ i ∈ form, ∀ input, doc.inputs[i]? = some input →
        input.required = true ∨ input.dataValidate = true →
        (validateField cfg doc i).2 = true) ∧
    (validateForm cfg doc form).1 = (selectInputs doc form).foldl (stepField cfg) doc ∧
    (∀ pre i post input, selectInputs doc form = pre ++ i :: post →
      doc.inputs[i]? = some input → (validateField cfg doc i).2 = false →
      (validateField cfg (pre.foldl (stepField cfg) doc) i).1.feedback =
        clearedFeedback (pre.foldl (stepField cfg) doc) input
          ++ [(input.parent, (validateFieldRules cfg doc input).2)] ∧
      (validateForm cfg doc form).1 =
        post.foldl (stepField cfg) (validateField cfg (pre.foldl (stepField cfg) doc) i).1 ∧
      ((∀ j ∈ post, ∀ inp, doc.inputs[j]? = some inp → inp.parent ≠ input.parent) →
        ((validateForm cfg doc form).1.feedback.filter
            (fun f => f.1 == input.parent)).getLast? =
          some (input.parent, (validateFieldRules cfg doc input).2))) := by
  refine ⟨?_, by rw [validateForm_eq], ?_⟩
  · rw [validateForm_eq]
    simp only [List.all_eq_true, mem_selectInputs]
    constructor
    · intro h i hi input hget hsel
      exact h i ⟨hi, input, hget, hsel⟩
    · rintro h i ⟨hi, input, hget, hsel⟩
      exact h i hi input hget hsel
  · intro pre i post input hsel hi hfail
    obtain ⟨h1, h2⟩ := validateForm_visit cfg doc form pre i post input hsel hi hfail
    exact ⟨h1, h2, fun hpar =>
      validateForm_keeps_message cfg doc form pre i post input hsel hi hfail hpar⟩

/-- Witness for C10 (amended): a form with an empty required text field and a
malformed email field in different parent elements; both are evaluated and each
still has its message when validateForm returns. -/
theorem validateForm_spec_witness :
    (validateForm config (sampleDoc [mkInput "" "text" "fullName" true 0,
      mkInput "x" "email" "email" true 1]) [0, 1]).2 = false ∧
    (validateForm config (sampleDoc [mkInput "" "text" "fullName" true 0,
      mkInput "x" "email" "email" true 1]) [0, 1]).1.feedback =
      [(0, "This field is required"), (1, "Please enter a valid email address")] ∧
    ((validateForm config (sampleDoc [mkInput "" "text" "fullName" true 0,
      mkInput "x" "email" "email" true 1]) [0, 1]).1.feedback.filter
        (fun f => f.1 == (mkInput "" "text" "fullName" true 0).parent)).getLast? =
      some ((mkInput "" "text" "fullName" true 0).parent,
        (validateFieldRules config (sampleDoc [mkInput "" "text" "fullName" true 0,
          mkInput "x" "email" "email" true 1]) (mkInput "" "text" "fullName" true 0)).2) :=
  ⟨by decide, by decide,
    ((validateForm_spec config (sampleDoc [mkInput "" "text" "fullName" true 0,
      mkInput "x" "email" "email" true 1]) [0, 1]).2.2 [] 0 [1]
      (mkInput "" "text" "fullName" true 0) (by decide) (by decide) (by decide)).2.2
      (by decide)⟩

/-! ## Submit pipeline -/

theorem getElem?_data (d1 d2 : Document) (i : Nat) (hd : d1.data = d2.data) :
    (d1.inputs[i]?).map Input.data = (d2.inputs[i]?).map Input.data := by
  have := congrArg (fun l => l[i]?) hd
  simpa [Document.data] using this

theorem selectInputs_congr (d1 d2 : Document) (form : List Nat) (hd : d1.data = d2.data) :
    selectInputs d1 form = selectInputs d2 form := by
  simp only [selectInputs]
  apply List.filter_congr
  intro i _
  have hget := getElem?_data d1 d2 i hd
  cases h1 : d1.inputs[i]? with
  | none =>
    cases h2 : d2.inputs[i]? with
    | none => rfl
    | some b => rw [h1, h2] at hget; simp at hget
  | some a =>
    cases h2 : d2.inputs[i]? with
    | none => rw [h1, h2] at hget; simp at hget
    | some b =>
      rw [h1, h2] at hget
      simp only [Option.map_some', Option.some.injEq] at hget
      have hr : a.required = b.required := by
        simpa [Input.data] using congrArg Input.required hget
      have hv : a.dataValidate = b.dataValidate := by
        simpa [Input.data] using congrArg Input.dataValidate hget
      simp [hr, hv]

theorem formEntries_congr (d1 d2 : Document) (form : List Nat) (hd : d1.data = d2.data) :
    formEntries d1 form = formEntries d2 form := by
  simp only [formEntries]
  congr 1
  funext i
  have hget := getElem?_data d1 d2 i hd
  cases h1 : d1.inputs[i]? with
  | none =>
    cases h2 : d2.inputs[i]? with
    | none => rfl
    | some b => rw [h1, h2] at hget; simp at hget
  | some a =>
    cases h2 : d2.inputs[i]? with
    | none => rw [h1, h2] at hget; simp at hget
    | some b =>
      rw [h1, h2] at hget
      simp only [Option.map_some', Option.some.injEq] at hget
      have hn : a.name = b.name := by simpa [Input.data] using congrArg Input.name hget
      have hv : a.value = b.value := by simpa [Input.data] using congrArg Input.value hget
      simp [hn, hv]

theorem validateForm_data (cfg : Config) (doc : Document) (form : List Nat) :
    (validateForm cfg doc form).1.data = doc.data := by
  rw [validateForm_eq]
  exact foldl_stepField_data cfg doc _

theorem validateForm_snd_congr (cfg : Config) (d1 d2 : Document) (form : List Nat)
    (hd : d1.data = d2.data) :
    (validateForm cfg d1 form).2 = (validateForm cfg d2 form).2 := by
  rw [validateForm_eq, validateForm_eq, selectInputs_congr d1 d2 form hd]
  simp only
  congr 1
  funext i
  exact validateField_snd_congr cfg d1 d2 i hd

theorem onSubmit_of_invalid (cfg : Config) (form : Form) (p : Page)
    (h : (validateForm cfg p.doc form.inputs).2 = false) :
    onSubmit cfg form p = { p with doc := (validateForm cfg p.doc form.inputs).1 } := by
  simp [onSubmit, h]

theorem onSubmit_of_valid (cfg : Config) (form : Form) (p : Page)
    (h : (validateForm cfg p.doc form.inputs).2 = true) :
    onSubmit cfg form p =
      { doc := (validateForm cfg p.doc form.inputs).1,
        submitBtn := setLoadingState p.submitBtn true,
        pending := p.pending ++ [{ formType := form.authType,
                                   data := formEntries p.doc form.inputs }],
        apiCalls := p.apiCalls ++ [{ formType := form.authType,
                                     data := formEntries p.doc form.inputs }],
        storage := p.storage, navigations := p.navigations, messages := p.messages,
        successScreen := p.successScreen, timeouts := p.timeouts } := by
  have hf := formEntries_congr _ _ form.inputs (validateForm_data cfg p.doc form.inputs)
  simp [onSubmit, h, handleFormSubmit, hf]

/-- C11: when validation of the form fails, the submit handler makes no backend call
(nothing is added to the invoked or pending calls), leaves the submit button as it
was, and runs no success follow-up: storage, navigation, messages, success screen and
timers are unchanged; only the validation marks of the document change. -/
theorem onSubmit_invalid (cfg : Config) (form : Form) (p : Page)
    (h : (validateForm cfg p.doc form.inputs).2 = false) :
    (onSubmit cfg form p).apiCalls = p.apiCalls ∧
    (onSubmit cfg form p).pending = p.pending ∧
    (onSubmit cfg form p).submitBtn = p.submitBtn ∧
    (onSubmit cfg form p).storage = p.storage ∧
    (onSubmit cfg form p).navigations = p.navigations ∧
    (onSubmit cfg form p).messages = p.messages ∧
    (onSubmit cfg form p).successScreen = p.successScreen ∧
    (onSubmit cfg form p).timeouts = p.timeouts ∧
    (onSubmit cfg form p).doc = (validateForm cfg p.doc form.inputs).1 := by
  rw [onSubmit_of_invalid cfg form p h]
  exact ⟨rfl, rfl, rfl, rfl, rfl, rfl, rfl, rfl, rfl⟩

/-- Witness for C11: the login form with the malformed email `a@b`. -/
theorem onSubmit_invalid_witness :
    (validateForm config (loginDoc "a@b" "Str0ng!Pass") loginForm.inputs).2 = false ∧
    (onSubmit config loginForm
      (samplePage (loginDoc "a@b" "Str0ng!Pass") (some signInButton))).apiCalls = [] ∧
    (onSubmit config loginForm
      (samplePage (loginDoc "a@b" "Str0ng!Pass") (some signInButton))).submitBtn
      = some signInButton :=
  have h := onSubmit_invalid config loginForm
    (samplePage (loginDoc "a@b" "Str0ng!Pass") (some signInButton)) (by decide)
  ⟨by decide, h.1, h.2.2.1⟩

/-- C12 as stated fails: on the valid login form a second submit action delivered
while the first call is still pending invokes the backend again, so two calls have
been made and both are pending. -/
theorem onSubmit_twice_counterexample :
    (validateForm config (loginDoc "a@b.com" "Str0ng!Pass") loginForm.inputs).2 = true ∧
    (onSubmit config loginForm
      (samplePage (loginDoc "a@b.com" "Str0ng!Pass") (some signInButton))).pending.length = 1 ∧
    (onSubmit config loginForm (onSubmit config loginForm
      (samplePage (loginDoc "a@b.com" "Str0ng!Pass") (some signInButton)))).apiCalls.length
      = 2 ∧
    (onSubmit config loginForm (onSubmit config loginForm
      (samplePage (loginDoc "a@b.com" "Str0ng!Pass") (some signInButton)))).pending.length
      = 2 := by
  decide

/-- C12 (amended): on a valid form every submit action delivered to the handler
invokes the backend call, also while an earlier call is pending, so two submit actions
give two invocations; what the first submit action does is disable the submit button,
when the form has one, until its call settles. -/
theorem onSubmit_twice (cfg : Config) (form : Form) (p : Page)
    (h : (validateForm cfg p.doc form.inputs).2 = true) :
    (onSubmit cfg form (onSubmit cfg form p)).apiCalls =
      p.apiCalls ++ [{ formType := form.authType, data := formEntries p.doc form.inputs },
                     { formType := form.authType, data := formEntries p.doc form.inputs }] ∧
    (onSubmit cfg form (onSubmit cfg form p)).pending =
      p.pending ++ [{ formType := form.authType, data := formEntries p.doc form.inputs },
                    { formType := form.authType, data := formEntries p.doc form.inputs }] ∧
    (∀ b, p.submitBtn = some b →
      ∃ b1, (onSubmit cfg form p).submitBtn = some b1 ∧ b1.disabled = true) := by
  have hd := validateForm_data cfg p.doc form.inputs
  have h1 := onSubmit_of_valid cfg form p h
  have h2 : (validateForm cfg (onSubmit cfg form p).doc form.inputs).2 = true := by
    rw [h1]
    simp only
    rw [validateForm_snd_congr cfg _ p.doc form.inputs hd]
    exact h
  have hf : formEntries (onSubmit cfg form p).doc form.inputs
      = formEntries p.doc form.inputs := by
    rw [h1]
    exact formEntries_congr _ _ form.inputs hd
  rw [onSubmit_of_valid cfg form (onSubmit cfg form p) h2, hf]
  refine ⟨?_, ?_, ?_⟩
  · rw [h1]; simp
  · rw [h1]; simp
  · intro b hb
    rw [h1]
    simp [hb, setLoadingState]

/-- Witness for C12 (amended): the valid login form of the scenario. -/
theorem onSubmit_twice_witness :
    (validateForm config (loginDoc "a@b.com" "Str0ng!Pass") loginForm.inputs).2 = true ∧
    (onSubmit config loginForm (onSubmit config loginForm
      (samplePage (loginDoc "a@b.com" "Str0ng!Pass") (some signInButton)))).apiCalls =
      [] ++ [{ formType := loginForm.authType,
               data := formEntries (loginDoc "a@b.com" "Str0ng!Pass") loginForm.inputs },
             { formType := loginForm.authType,
               data := formEntries (loginDoc "a@b.com" "Str0ng!Pass") loginForm.inputs }] :=
  ⟨by decide, (onSubmit_twice config loginForm
    (samplePage (loginDoc "a@b.com" "Str0ng!Pass") (some signInButton)) (by decide)).1⟩

theorem getItem_setItem_self (s : List (String × JSString)) (k : String) (v : JSString) :
    getItem (setItem s k v) k = some v := by
  have hnone : (s.filter (fun e => e.1 != k)).find? (fun e => e.1 == k) = Option.none := by
    rw [List.find?_eq_none]
    intro x hx
    have := (List.mem_filter.mp hx).2
    simpa using this
  simp [getItem, setItem, List.find?_append, hnone]

theorem getItem_setItem_other (s : List (String × JSString)) (k k2 : String) (v : JSString)
    (h : k2 ≠ k) : getItem (setItem s k v) k2 = getItem s k2 := by
  have hfilter : (s.filter (fun e => e.1 != k)).find? (fun e => e.1 == k2)
      = s.find? (fun e => e.1 == k2) := by
    induction s with
    | nil => rfl
    | cons x s ih =>
      by_cases hx : x.1 = k
      · have hkk : (k == k2) = false := by simpa using fun e : k = k2 => h e.symm
        simp [List.filter_cons, hx, List.find?_cons, ih, hkk]
      · by_cases hx2 : x.1 = k2
        · simp [List.filter_cons, hx, hx2, List.find?_cons, h]
        · simp [List.filter_cons, hx, hx2, List.find?_cons, ih]
  have hk : ¬ k = k2 := fun e => h e.symm
  simp only [getItem, setItem, List.find?_append, hfilter]
  cases s.find? (fun e => e.1 == k2) <;> simp [List.find?_cons, hk]

theorem eraseIdx_concat_length {α : Type} (l : List α) (a : α) :
    (l ++ [a]).eraseIdx l.length = l := by
  induction l with
  | nil => rfl
  | cons x l ih => simp [List.eraseIdx_cons_succ, ih]

theorem submitAndSettle_eq (cfg : Config) (form : Form) (outcome : Outcome) (p : Page)
    (h : (validateForm cfg p.doc form.inputs).2 = true) :
    submitAndSettle cfg form outcome p =
      { (match outcome with
          | Outcome.resolved =>
            handleSuccess form form.authType (formEntries p.doc form.inputs)
              (submittedPage cfg form p)
          | Outcome.rejected error => handleError error (submittedPage cfg form p)
          | Outcome.rejectedNullish => submittedPage cfg form p)
        with submitBtn := p.submitBtn.map restoredButton } := by
  rw [submitAndSettle, onSubmit_of_valid cfg form p h]
  simp only [settle, List.getElem?_concat_length, eraseIdx_concat_length, submittedPage,
    submittedCall, restoredButton]
  cases outcome with
  | resolved =>
    simp only [handleSuccess, showMessage, showSuccessScreen]
    cases hb : p.submitBtn <;> split_ifs <;> simp [setLoadingState, restoredButton]
  | rejected error =>
    simp only [handleError, showMessage]
    cases hb : p.submitBtn <;> simp [setLoadingState, restoredButton]
  | rejectedNullish =>
    cases hb : p.submitBtn <;> simp [setLoadingState, restoredButton]

/-- C13: a login submission whose backend call resolves, with form data holding the
email e, leaves the token under auth_token and e under user_email in storage, writes
no other storage key, requests the navigation to index.html exactly once (and
schedules no delayed navigation), and has invoked the backend once. -/
theorem login_success (cfg : Config) (form : Form) (p : Page) (e : JSString)
    (ht : form.authType = some "login")
    (hv : (validateForm cfg p.doc form.inputs).2 = true)
    (he : getProp (formEntries p.doc form.inputs) "email" = some e) :
    (submitAndSettle cfg form Outcome.resolved p).storage =
      setItem (setItem p.storage "auth_token" (utf16 "simulated_token")) "user_email" e ∧
    getItem (submitAndSettle cfg form Outcome.resolved p).storage "auth_token"
      = some (utf16 "simulated_token") ∧
    getItem (submitAndSettle cfg form Outcome.resolved p).storage "user_email" = some e ∧
    (∀ k, k ≠ "auth_token" → k ≠ "user_email" →
      getItem (submitAndSettle cfg form Outcome.resolved p).storage k = getItem p.storage k) ∧
    (submitAndSettle cfg form Outcome.resolved p).navigations
      = p.navigations ++ ["index.html"] ∧
    (submitAndSettle cfg form Outcome.resolved p).timeouts = p.timeouts ∧
    (submitAndSettle cfg form Outcome.resolved p).apiCalls
      = p.apiCalls ++ [submittedCall form p] := by
  have hs : (submitAndSettle cfg form Outcome.resolved p).storage =
      setItem (setItem p.storage "auth_token" (utf16 "simulated_token")) "user_email" e := by
    rw [submitAndSettle_eq cfg form _ p hv]
    simp [handleSuccess, ht, submittedPage, he, toJSString]
  refine ⟨hs, ?_, ?_, ?_, ?_, ?_, ?_⟩
  · rw [hs, getItem_setItem_other _ _ _ _ (by decide), getItem_setItem_self]
  · rw [hs, getItem_setItem_self]
  · intro k h1 h2
    rw [hs, getItem_setItem_other _ _ _ _ h2, getItem_setItem_other _ _ _ _ h1]
  · rw [submitAndSettle_eq cfg form _ p hv]
    simp [handleSuccess, ht, submittedPage]
  · rw [submitAndSettle_eq cfg form _ p hv]
    simp [handleSuccess, ht, submittedPage]
  · rw [submitAndSettle_eq cfg form _ p hv]
    simp [handleSuccess, ht, submittedPage]

/-- Witness for C13: the scenario with email `a@b.com` and password `Str0ng!Pass`. -/
theorem login_success_witness :
    loginForm.authType = some "login" ∧
    (validateForm config (loginDoc "a@b.com" "Str0ng!Pass") loginForm.inputs).2 = true ∧
    getProp (formEntries (loginDoc "a@b.com" "Str0ng!Pass") loginForm.inputs) "email"
      = some (utf16 "a@b.com") ∧
    (submitAndSettle config loginForm Outcome.resolved
      (samplePage (loginDoc "a@b.com" "Str0ng!Pass") (some signInButton))).storage =
      [("auth_token", utf16 "simulated_token"), ("user_email", utf16 "a@b.com")] ∧
    (submitAndSettle config loginForm Outcome.resolved
      (samplePage (loginDoc "a@b.com" "Str0ng!Pass") (some signInButton))).navigations =
      ["index.html"] :=
  have h := login_success config loginForm
    (samplePage (loginDoc "a@b.com" "Str0ng!Pass") (some signInButton)) (utf16 "a@b.com")
    (by decide) (by decide) (by decide)
  ⟨by decide, by decide, by decide, h.1, h.2.2.2.2.1⟩

theorem settle_rejected_eq (form : Form) (p : Page) (k : Nat) (call : ApiCall)
    (error : ErrorObject) (hk : p.pending[k]? = some call) :
    settle form k (Outcome.rejected error) p =
      { doc := p.doc, submitBtn := setLoadingState p.submitBtn false,
        pending := p.pending.eraseIdx k, apiCalls := p.apiCalls, storage := p.storage,
        navigations := p.navigations,
        messages := (handleError error p).messages,
        successScreen := p.successScreen, timeouts := p.timeouts } := by
  simp [settle, hk, handleError, showMessage]

theorem handleError_messages (error : ErrorObject) (p : Page) :
    (∀ m, error.message = some m → m ≠ [] →
      (handleError error p).messages = p.messages ++ [(m, "error")]) ∧
    (error.message = Option.none ∨ error.message = some [] →
      (handleError error p).messages
        = p.messages ++ [(utf16 "An error occurred. Please try again.", "error")]) := by
  constructor
  · intro m hm hne
    cases m with
    | nil => exact absurd rfl hne
    | cons c m => simp [handleError, showMessage, hm]
  · rintro (hm | hm) <;> simp [handleError, showMessage, hm]

theorem handleSuccess_submitBtn (form : Form) (formType : Option String)
    (data : List (String × JSString)) (p : Page) :
    (handleSuccess form formType data p).submitBtn = p.submitBtn := by
  unfold handleSuccess showSuccessScreen showMessage
  split_ifs <;> rfl

theorem setLoadingState_false_originalText (button : Option Button) :
    (setLoadingState button false).map Button.originalText
      = button.map Button.originalText := by
  cases button <;> simp [setLoadingState]

theorem settle_originalText (form : Form) (k : Nat) (outcome : Outcome) (p : Page) :
    (settle form k outcome p).submitBtn.map Button.originalText
      = p.submitBtn.map Button.originalText := by
  unfold settle
  cases p.pending[k]? with
  | none => rfl
  | some call =>
    cases outcome with
    | resolved =>
      simp only [handleSuccess_submitBtn, setLoadingState_false_originalText]
    | rejected error =>
      simp only [handleError, showMessage, setLoadingState_false_originalText]
    | rejectedNullish =>
      simp only [setLoadingState_false_originalText]

theorem onTimeout_submitBtn (p : Page) : (onTimeout p).submitBtn = p.submitBtn := by
  unfold onTimeout
  cases p.timeouts <;> rfl

theorem runOther_originalText (events : List OtherEvent) (p : Page) :
    (runOther events p).submitBtn.map Button.originalText
      = p.submitBtn.map Button.originalText := by
  induction events generalizing p with
  | nil => rfl
  | cons e es ih =>
    have : runOther (e :: es) p = runOther es (otherStep p e) := rfl
    rw [this, ih]
    cases e with
    | settled form k outcome => exact settle_originalText form k outcome p
    | timeout => simp only [otherStep, onTimeout_submitBtn]

theorem setLoadingState_false_of_originalText (button start : Option Button)
    (h : button.map Button.originalText = start.map (fun b => some b.innerHTML)) :
    setLoadingState button false = start.map restoredButton := by
  cases button with
  | none =>
    cases start with
    | none => rfl
    | some b => simp at h
  | some b1 =>
    cases start with
    | none => simp at h
    | some b =>
      simp only [Option.map_some', Option.some.injEq] at h
      simp [setLoadingState, restoredButton, h]

/-- C14 as stated fails: on the valid register form a second submit action is delivered
before the first call rejects; when the first call rejects the button is enabled again
but shows the spinner markup, not the content Sign In it had, and it still does after
the second call has rejected as well.  And a rejection with undefined as reason
requests no notification at all, not even the fallback text. -/
theorem submit_rejected_counterexample :
    (validateForm config (loginDoc "a@b.com" "Str0ng!Pass") registerForm.inputs).2 = true ∧
    (settle registerForm 0 (Outcome.rejected { message := some (utf16 "Email already in use") })
      (onSubmit config registerForm (onSubmit config registerForm
        (samplePage (loginDoc "a@b.com" "Str0ng!Pass") (some signInButton))))).submitBtn
      = some { innerHTML := spinnerHTML, disabled := false,
               originalText := some spinnerHTML } ∧
    spinnerHTML ≠ signInButton.innerHTML ∧
    (settle registerForm 0 (Outcome.rejected { message := some (utf16 "Email already in use") })
      (settle registerForm 0
        (Outcome.rejected { message := some (utf16 "Email already in use") })
        (onSubmit config registerForm (onSubmit config registerForm
          (samplePage (loginDoc "a@b.com" "Str0ng!Pass") (some signInButton)))))).submitBtn
      = some { innerHTML := spinnerHTML, disabled := false,
               originalText := some spinnerHTML } ∧
    (submitAndSettle config registerForm Outcome.rejectedNullish
      (samplePage (loginDoc "a@b.com" "Str0ng!Pass") (some signInButton))).messages = [] := by
  decide

/-- C14 (amended): whenever the call of a submission rejects with a reason that carries
a non-empty message m, exactly one notification is requested, of severity error and
text m, and when the reason carries no message (absent or empty) the generic fallback
text is used instead; no success follow-up happens (storage, navigation, success
screen and timers are unchanged) and the submit button ends enabled, showing the
content that the latest submit action stored in its dataset.  When no other submit
action came between the submit action of the submission and the rejection of its call
(other calls may settle and timers may fire in between), that is the content the
button had when the submit action was delivered. -/
theorem submit_rejected (cfg : Config) (form : Form) (p : Page) (error : ErrorObject) :
    (∀ k call, p.pending[k]? = some call →
      (∀ m, error.message = some m → m ≠ [] →
        (settle form k (Outcome.rejected error) p).messages = p.messages ++ [(m, "error")]) ∧
      (error.message = Option.none ∨ error.message = some [] →
        (settle form k (Outcome.rejected error) p).messages
          = p.messages ++ [(utf16 "An error occurred. Please try again.", "error")]) ∧
      (settle form k (Outcome.rejected error) p).storage = p.storage ∧
      (settle form k (Outcome.rejected error) p).navigations = p.navigations ∧
      (settle form k (Outcome.rejected error) p).successScreen = p.successScreen ∧
      (settle form k (Outcome.rejected error) p).timeouts = p.timeouts ∧
      (settle form k (Outcome.rejected error) p).apiCalls = p.apiCalls ∧
      (∀ b, p.submitBtn = some b →
        ∃ b1, (settle form k (Outcome.rejected error) p).submitBtn = some b1 ∧
          b1.disabled = false ∧ b1.innerHTML = b.originalText.getD "undefined")) ∧
    ((validateForm cfg p.doc form.inputs).2 = true →
      (∀ m, error.message = some m → m ≠ [] →
        (submitAndSettle cfg form (Outcome.rejected error) p).messages
          = p.messages ++ [(m, "error")]) ∧
      (error.message = Option.none ∨ error.message = some [] →
        (submitAndSettle cfg form (Outcome.rejected error) p).messages
          = p.messages ++ [(utf16 "An error occurred. Please try again.", "error")]) ∧
      (submitAndSettle cfg form (Outcome.rejected error) p).storage = p.storage ∧
      (submitAndSettle cfg form (Outcome.rejected error) p).navigations = p.navigations ∧
      (submitAndSettle cfg form (Outcome.rejected error) p).successScreen
        = p.successScreen ∧
      (submitAndSettle cfg form (Outcome.rejected error) p).timeouts = p.timeouts ∧
      (submitAndSettle cfg form (Outcome.rejected error) p).pending = p.pending ∧
      (submitAndSettle cfg form (Outcome.rejected error) p).submitBtn
        = p.submitBtn.map restoredButton ∧
      (∀ b, p.submitBtn = some b →
        ∃ b1, (submitAndSettle cfg form (Outcome.rejected error) p).submitBtn = some b1 ∧
          b1.disabled = false ∧ b1.innerHTML = b.innerHTML) ∧
      (∀ events k call,
        (runOther events (onSubmit cfg form p)).pending[k]? = some call →
        (settle form k (Outcome.rejected error)
          (runOther events (onSubmit cfg form p))).submitBtn
          = p.submitBtn.map restoredButton)) := by
  constructor
  · intro k call hk
    rw [settle_rejected_eq form p k call error hk]
    refine ⟨(handleError_messages error p).1, (handleError_messages error p).2,
      rfl, rfl, rfl, rfl, rfl, ?_⟩
    intro b hb
    simp [hb, setLoadingState]
  · intro hv
    rw [submitAndSettle_eq cfg form _ p hv]
    refine ⟨?_, ?_, ?_, ?_, ?_, ?_, ?_, ?_, ?_, ?_⟩
    · intro m hm hne
      cases m with
      | nil => exact absurd rfl hne
      | cons c m => simp [handleError, showMessage, submittedPage, hm]
    · rintro (hm | hm) <;> simp [handleError, showMessage, submittedPage, hm]
    · simp [handleError, showMessage, submittedPage]
    · simp [handleError, showMessage, submittedPage]
    · simp [handleError, showMessage, submittedPage]
    · simp [handleError, showMessage, submittedPage]
    · simp [handleError, showMessage, submittedPage]
    · rfl
    · intro b hb
      exact ⟨restoredButton b, by simp [hb], rfl, rfl⟩
    · intro events k call hk
      rw [settle_rejected_eq form _ k call error hk]
      apply setLoadingState_false_of_originalText
      rw [runOther_originalText, onSubmit_of_valid cfg form p hv]
      cases p.submitBtn <;> simp [setLoadingState]

/-- Witness for C14 (amended): the register scenario rejected with Email already in
use. -/
theorem submit_rejected_witness :
    (validateForm config (loginDoc "a@b.com" "Str0ng!Pass") registerForm.inputs).2 = true ∧
    (submitAndSettle config registerForm
      (Outcome.rejected { message := some (utf16 "Email already in use") })
      (samplePage (loginDoc "a@b.com" "Str0ng!Pass") (some signInButton))).messages =
      [(utf16 "Email already in use", "error")] ∧
    (submitAndSettle config registerForm
      (Outcome.rejected { message := some (utf16 "Email already in use") })
      (samplePage (loginDoc "a@b.com" "Str0ng!Pass") (some signInButton))).submitBtn =
      some (restoredButton signInButton) :=
  have h := (submit_rejected config registerForm
    (samplePage (loginDoc "a@b.com" "Str0ng!Pass") (some signInButton))
    { message := some (utf16 "Email already in use") }).2 (by decide)
  ⟨by decide, h.1 (utf16 "Email already in use") rfl (by decide), h.2.2.2.2.2.2.2.1⟩

/-! ## OTP inputs -/

theorem spread_of_no_pair (l : JSString) (h : hasSurrogatePair l = false) :
    spread l = l.map (fun c => [c]) := by
  induction l with
  | nil => rfl
  | cons c l ih =>
    cases l with
    | nil => rfl
    | cons d rest =>
      simp only [hasSurrogatePair, Bool.or_eq_false_iff] at h
      simp only [spread, h.1, List.map_cons]
      rw [ih h.2]
      simp

theorem mem_classListAdd (cl : List String) (t : String) : t ∈ classListAdd cl t := by
  unfold classListAdd
  split_ifs with h
  · simpa using h
  · simp

theorem foldl_pasteChar_aux (cs : List JSString) :
    ∀ (pre rest : List OtpInput), cs.length ≤ rest.length →
      (cs.enumFrom pre.length).foldl (fun inputs e => pasteChar inputs e.1 e.2) (pre ++ rest)
        = pre ++ List.zipWith filledSlot (cs.map sanitizeValue) rest
            ++ rest.drop cs.length := by
  induction cs with
  | nil => intro pre rest _; simp
  | cons ch cs ih =>
    intro pre rest hlen
    cases rest with
    | nil => simp at hlen
    | cons r rest =>
      simp only [List.length_cons, Nat.add_le_add_iff_right] at hlen
      simp only [List.enumFrom_cons, List.foldl_cons]
      have hstep : pasteChar (pre ++ r :: rest) pre.length ch
          = (pre ++ [filledSlot (sanitizeValue ch) r]) ++ rest := by
        have hget : (pre ++ r :: rest)[pre.length]? = some r := by
          rw [List.getElem?_append_right (Nat.le_refl _)]
          simp
        simp only [pasteChar, hget, filledSlot]
        simp
      rw [hstep]
      have hl : (pre ++ [filledSlot (sanitizeValue ch) r]).length = pre.length + 1 := by
        simp
      rw [← hl, ih (pre ++ [filledSlot (sanitizeValue ch) r]) rest hlen]
      simp

theorem foldl_pasteChar (cs : List JSString) (inputs : List OtpInput)
    (h : cs.length ≤ inputs.length) :
    cs.enum.foldl (fun inputs e => pasteChar inputs e.1 e.2) inputs
      = List.zipWith filledSlot (cs.map sanitizeValue) inputs ++ inputs.drop cs.length := by
  have := foldl_pasteChar_aux cs [] inputs h
  simpa [List.enum] using this

theorem sanitizeValue_singletons (l : JSString) (h : ∀ c ∈ l, c ≠ 10 ∧ c ≠ 13) :
    (l.map (fun c => [c])).map sanitizeValue = l.map (fun c => [c]) := by
  induction l with
  | nil => rfl
  | cons c l ih =>
    have hc := h c (List.mem_cons_self c l)
    have ih := ih (fun d hd => h d (List.mem_cons_of_mem c hd))
    simp only [List.map_cons, ih]
    simp [sanitizeValue, hc.1, hc.2]

theorem map_value_zipWith_filledSlot (cs : List JSString) :
    ∀ inputs : List OtpInput, cs.length = inputs.length →
      (List.zipWith filledSlot cs inputs).map OtpInput.value = cs := by
  induction cs with
  | nil => intro inputs _; simp
  | cons ch cs ih =>
    intro inputs h
    cases inputs with
    | nil => simp at h
    | cons r rest =>
      simp only [List.length_cons, Nat.add_right_cancel_iff] at h
      simp [filledSlot, ih rest h]

theorem checkOtpComplete_inputs (cfg : Config) (s : OtpState) :
    (checkOtpComplete cfg s).inputs = s.inputs := by
  unfold checkOtpComplete
  simp only
  split_ifs <;> rfl

theorem onOtpPaste_inputs (cfg : Config) (s : OtpState) (index : Nat) (text : JSString) :
    (onOtpPaste cfg s index text).inputs =
      (spread (text.take cfg.otpLength)).enum.foldl
        (fun inputs e => pasteChar inputs e.1 e.2) s.inputs := by
  unfold onOtpPaste
  simp only [checkOtpComplete_inputs]
  split_ifs <;> rfl

/-- The paste listener on plain text: with exactly `otpLength` slots and a pasted text
longer than `otpLength` whose first `otpLength` code units contain no surrogate pair
and no line break, the paste listener of whichever slot fills exactly `otpLength`
slots from slot 0: slot k ends up holding the k-th code unit for every k below
`otpLength` and is marked filled, and the code units beyond the first `otpLength` play
no part. -/
theorem onOtpPaste_fills (cfg : Config) (s : OtpState) (index : Nat) (text : JSString)
    (hn : s.inputs.length = cfg.otpLength) (hlen : text.length > cfg.otpLength)
    (hbmp : hasSurrogatePair (text.take cfg.otpLength) = false)
    (hline : ∀ c ∈ text.take cfg.otpLength, c ≠ 10 ∧ c ≠ 13) :
    (onOtpPaste cfg s index text).inputs.length = cfg.otpLength ∧
    (onOtpPaste cfg s index text).inputs.map OtpInput.value
      = (text.take cfg.otpLength).map (fun c => [c]) ∧
    (∀ inp ∈ (onOtpPaste cfg s index text).inputs, "filled" ∈ inp.classList) ∧
    onOtpPaste cfg s index text = onOtpPaste cfg s 0 (text.take cfg.otpLength) := by
  have hcs : ((text.take cfg.otpLength).map (fun c => [c])).length = s.inputs.length := by
    simp [hn]; omega
  have hin : (onOtpPaste cfg s index text).inputs =
      List.zipWith filledSlot ((text.take cfg.otpLength).map (fun c => [c])) s.inputs := by
    rw [onOtpPaste_inputs, spread_of_no_pair _ hbmp, foldl_pasteChar _ _ (le_of_eq hcs), hcs,
      sanitizeValue_singletons _ hline]
    simp
  refine ⟨?_, ?_, ?_, ?_⟩
  · rw [hin]; simp [hn]; omega
  · rw [hin]; exact map_value_zipWith_filledSlot _ _ hcs
  · intro inp hinp
    rw [hin] at hinp
    obtain ⟨i, hi, rfl⟩ := List.getElem_of_mem hinp
    simp only [List.getElem_zipWith, filledSlot]
    exact mem_classListAdd _ _
  · simp [onOtpPaste, List.take_take]

/-- An instance of `onOtpPaste_fills`: pasting `1234567` into six empty slots. -/
theorem onOtpPaste_fills_instance :
    (emptyOtp 6).inputs.length = config.otpLength ∧
    (utf16 "1234567").length > config.otpLength ∧
    hasSurrogatePair ((utf16 "1234567").take config.otpLength) = false ∧
    (onOtpPaste config (emptyOtp 6) 3 (utf16 "1234567")).inputs.map OtpInput.value
      = ((utf16 "1234567").take config.otpLength).map (fun c => [c]) :=
  ⟨by decide, by decide, by decide,
    (onOtpPaste_fills config (emptyOtp 6) 3 (utf16 "1234567")
      (by decide) (by decide) (by decide) (by decide)).2.1⟩

/-- C15 (code at the failing inputs): the text made of U+1F600 (two code units) and
`1234567` is longer than 6, yet pasting it into six empty slots fills only five of
them: slot 0 gets both code units of the first character and slot 5 stays empty.  And
pasting `12`, a line feed and `4567` leaves slot 2 empty, although marked filled,
because the value of an input drops line breaks; the submit button stays disabled. -/
theorem onOtpPaste_failing_inputs :
    (emptyOtp 6).inputs.length = config.otpLength ∧
    ([55357, 56832] ++ utf16 "1234567").length > config.otpLength ∧
    (onOtpPaste config (emptyOtp 6) 0 ([55357, 56832] ++ utf16 "1234567")).inputs.map
        OtpInput.value
      = [[55357, 56832], utf16 "1", utf16 "2", utf16 "3", utf16 "4", []] ∧
    (utf16 "12" ++ [10] ++ utf16 "4567").length > config.otpLength ∧
    (onOtpPaste config (emptyOtp 6) 0 (utf16 "12" ++ [10] ++ utf16 "4567")).inputs =
      [ { value := utf16 "1", classList := ["filled"] },
        { value := utf16 "2", classList := ["filled"] },
        { value := [], classList := ["filled"] },
        { value := utf16 "4", classList := ["filled"] },
        { value := utf16 "5", classList := ["filled"] },
        { value := utf16 "6", classList := ["filled"] } ] ∧
    (onOtpPaste config (emptyOtp 6) 0
      (utf16 "12" ++ [10] ++ utf16 "4567")).submitDisabled = some true := by
  decide

/-- C16 (code at the failing input): pasting `12ab56` into six empty slots stores the
letters a and b in slots 2 and 3 and marks them filled; the paste listener has no
digit filter. -/
theorem onOtpPaste_stores_letters :
    (onOtpPaste config (emptyOtp 6) 0 (utf16 "12ab56")).inputs =
      [ { value := utf16 "1", classList := ["filled"] },
        { value := utf16 "2", classList := ["filled"] },
        { value := utf16 "a", classList := ["filled"] },
        { value := utf16 "b", classList := ["filled"] },
        { value := utf16 "5", classList := ["filled"] },
        { value := utf16 "6", classList := ["filled"] } ] ∧
    testClass isDigit09 (utf16 "a") = false ∧
    (onOtpPaste config (emptyOtp 6) 0 (utf16 "12ab56")).submitDisabled = some false := by
  decide

/-- C17 (code at the failing input): in the state that pasting U+1F600 followed by
`1234` into six empty slots produces, the last slot is empty, yet `checkOtpComplete`
treats the OTP as complete and enables the submit button, because the joined values
have 6 code units.  The call site announces a check that all inputs are filled. -/
theorem checkOtpComplete_counterexample :
    (onOtpPaste config (emptyOtp 6) 0 ([55357, 56832] ++ utf16 "1234")).inputs.map
        OtpInput.value
      = [[55357, 56832], utf16 "1", utf16 "2", utf16 "3", utf16 "4", []] ∧
    (otpOf [[55357, 56832], utf16 "1", utf16 "2", utf16 "3", utf16 "4", []]).inputs.length
      = config.otpLength ∧
    (checkOtpComplete config
      (otpOf [[55357, 56832], utf16 "1", utf16 "2", utf16 "3", utf16 "4", []])).submitDisabled
      = some false ∧
    ¬ (∀ inp ∈ (otpOf [[55357, 56832], utf16 "1", utf16 "2", utf16 "3", utf16 "4",
        []]).inputs, inp.value ≠ []) := by
  decide

theorem flatten_length_le (inputs : List OtpInput)
    (h1 : ∀ inp ∈ inputs, inp.value.length ≤ 1) :
    (inputs.map OtpInput.value).flatten.length ≤ inputs.length := by
  induction inputs with
  | nil => simp
  | cons x l ih =>
    have hx := h1 x (List.mem_cons_self x l)
    have := ih (fun inp hinp => h1 inp (List.mem_cons_of_mem x hinp))
    simp only [List.map_cons, List.flatten_cons, List.length_append, List.length_cons]
    omega

theorem flatten_length_eq_iff (inputs : List OtpInput)
    (h1 : ∀ inp ∈ inputs, inp.value.length ≤ 1) :
    (inputs.map OtpInput.value).flatten.length = inputs.length ↔
      ∀ inp ∈ inputs, inp.value ≠ [] := by
  induction inputs with
  | nil => simp
  | cons x l ih =>
    have hx := h1 x (List.mem_cons_self x l)
    have hl : ∀ inp ∈ l, inp.value.length ≤ 1 :=
      fun inp hinp => h1 inp (List.mem_cons_of_mem x hinp)
    have hle := flatten_length_le l hl
    have ih := ih hl
    simp only [List.map_cons, List.flatten_cons, List.length_append, List.length_cons,
      List.mem_cons, forall_eq_or_imp]
    rw [← ih]
    have hne : x.value ≠ [] ↔ x.value.length = 1 := by
      constructor
      · intro hne
        have : x.value.length ≠ 0 := fun h0 => hne (List.length_eq_zero.mp h0)
        omega
      · intro h1 h0
        rw [h0] at h1
        simp at h1
    rw [hne]
    omega

/-- The length test on slots of at most one code unit: in every state with exactly
`otpLength` slots, each holding at most one code unit, `checkOtpComplete` treats the
OTP as complete, and enables the submit button if there is one, exactly when every slot
is non-empty; otherwise it changes nothing.  It never touches the slots or the focus
and submits nothing. -/
theorem checkOtpComplete_iff (cfg : Config) (s : OtpState)
    (hn : s.inputs.length = cfg.otpLength)
    (h1 : ∀ inp ∈ s.inputs, inp.value.length ≤ 1) :
    ((s.inputs.map OtpInput.value).flatten.length = cfg.otpLength ↔
      ∀ inp ∈ s.inputs, inp.value ≠ []) ∧
    ((∀ inp ∈ s.inputs, inp.value ≠ []) →
      checkOtpComplete cfg s
        = { s with submitDisabled := s.submitDisabled.map (fun _ => false) }) ∧
    (¬ (∀ inp ∈ s.inputs, inp.value ≠ []) → checkOtpComplete cfg s = s) ∧
    (checkOtpComplete cfg s).inputs = s.inputs ∧
    (checkOtpComplete cfg s).focus = s.focus := by
  have hiff := flatten_length_eq_iff s.inputs h1
  rw [hn] at hiff
  refine ⟨hiff, ?_, ?_, checkOtpComplete_inputs cfg s, ?_⟩
  · intro hall
    simp only [checkOtpComplete]
    rw [if_pos (hiff.mpr hall)]
  · intro hnot
    have : ¬ (s.inputs.map OtpInput.value).flatten.length = cfg.otpLength :=
      fun h => hnot (hiff.mp h)
    simp only [checkOtpComplete]
    rw [if_neg this]
  · unfold checkOtpComplete
    simp only
    split_ifs <;> rfl

/-- An instance of `checkOtpComplete_iff`: six slots holding `123456`. -/
theorem checkOtpComplete_iff_instance :
    (otpOf [utf16 "1", utf16 "2", utf16 "3", utf16 "4", utf16 "5", utf16 "6"]).inputs.length
      = config.otpLength ∧
    (∀ inp ∈ (otpOf [utf16 "1", utf16 "2", utf16 "3", utf16 "4", utf16 "5",
        utf16 "6"]).inputs, inp.value ≠ []) ∧
    (checkOtpComplete config
      (otpOf [utf16 "1", utf16 "2", utf16 "3", utf16 "4", utf16 "5", utf16 "6"])).submitDisabled
      = some false :=
  have h := checkOtpComplete_iff config
    (otpOf [utf16 "1", utf16 "2", utf16 "3", utf16 "4", utf16 "5", utf16 "6"])
    (by decide) (by decide)
  ⟨by decide, by decide, by rw [h.2.1 (by decide)]; rfl⟩

theorem checkOtpComplete_focus (cfg : Config) (s : OtpState) :
    (checkOtpComplete cfg s).focus = s.focus := by
  unfold checkOtpComplete
  simp only
  split_ifs <;> rfl

theorem utf16_backspace : utf16 "Backspace" = [66, 97, 99, 107, 115, 112, 97, 99, 101] := by
  decide

theorem onOtpKeydown_char (s : OtpState) (i c : Nat) : onOtpKeydown s i [c] = s := by
  unfold onOtpKeydown
  cases s.inputs[i]? with
  | none => rfl
  | some input => simp [utf16_backspace]

theorem typeKey_digit (cfg : Config) (s : OtpState) (i : Nat) (input : OtpInput) (c : Nat)
    (hi : s.inputs[i]? = some input) (hc : isDigit09 c = true) :
    (typeKey cfg s i [c] [c]).inputs = s.inputs.set i (filledSlot [c] input) ∧
    (typeKey cfg s i [c] [c]).focus
      = if i < s.inputs.length - 1 then some (i + 1) else s.focus := by
  have hlt : i < s.inputs.length := by
    rcases Nat.lt_or_ge i s.inputs.length with h | h
    · exact h
    · rw [List.getElem?_eq_none h] at hi; cases hi
  have hp : keypressPrevented [c] = false := by simp [keypressPrevented, testClass, hc]
  have hset : (s.inputs.set i { input with value := [c] })[i]?
      = some { input with value := [c] } := by
    rw [List.getElem?_set_self hlt]
  have hstep : typeKey cfg s i [c] [c]
      = onOtpInput cfg { s with inputs := s.inputs.set i { input with value := [c] } } i := by
    simp only [typeKey, onOtpKeydown_char, hp, hi]
    rfl
  rw [hstep]
  unfold onOtpInput
  simp only [hset, checkOtpComplete_inputs, checkOtpComplete_focus, List.length_singleton,
    if_true, List.length_set]
  by_cases hlast : i < s.inputs.length - 1
  · simp only [hlast, if_true, List.set_set, filledSlot]
    exact ⟨trivial, trivial⟩
  · simp only [hlast, if_false, List.set_set, filledSlot]
    exact ⟨trivial, trivial⟩

theorem spread_ne_nil (c : Nat) (l : JSString) : spread (c :: l) ≠ [] := by
  cases l with
  | nil => simp [spread]
  | cons d rest =>
    unfold spread
    split_ifs <;> simp

theorem isCharacterKey_cases (key : JSString) (h : isCharacterKey key = true) :
    (∃ c, key = [c]) ∨
    (∃ c d, key = [c, d] ∧ isHighSurrogate c = true ∧ isLowSurrogate d = true) := by
  unfold isCharacterKey at h
  match key, h with
  | [], h => simp [spread] at h
  | [c], _ => exact Or.inl ⟨c, rfl⟩
  | c :: d :: rest, h =>
    unfold spread at h
    by_cases hs : (isHighSurrogate c && isLowSurrogate d) = true
    · rw [if_pos hs] at h
      cases rest with
      | nil =>
        simp only [Bool.and_eq_true] at hs
        exact Or.inr ⟨c, d, rfl, hs.1, hs.2⟩
      | cons e rest =>
        have := spread_ne_nil e rest
        cases hsp : spread (e :: rest) with
        | nil => exact absurd hsp this
        | cons x xs => simp [hsp] at h
    · rw [if_neg hs] at h
      have := spread_ne_nil d rest
      cases hsp : spread (d :: rest) with
      | nil => exact absurd hsp this
      | cons x xs => simp [hsp] at h

theorem characterKey_not_digit (key : JSString) (h : isCharacterKey key = true)
    (hd : ∀ c, isDigit09 c = true → key ≠ [c]) :
    testClass isDigit09 key = false ∧ key ≠ utf16 "Backspace" := by
  rcases isCharacterKey_cases key h with ⟨c, rfl⟩ | ⟨c, d, rfl, hc, hd2⟩
  · refine ⟨?_, by simp [utf16_backspace]⟩
    cases hdc : isDigit09 c with
    | false => simp [testClass, hdc]
    | true => exact absurd rfl (hd c hdc)
  · refine ⟨?_, by simp [utf16_backspace]⟩
    simp only [isHighSurrogate, isLowSurrogate, Bool.and_eq_true, decide_eq_true_eq] at hc hd2
    have h1 : isDigit09 c = false := by
      simp only [isDigit09, Bool.and_eq_false_iff, decide_eq_false_iff_not]; omega
    have h2 : isDigit09 d = false := by
      simp only [isDigit09, Bool.and_eq_false_iff, decide_eq_false_iff_not]; omega
    simp [testClass, h1, h2]

theorem onOtpKeydown_other (s : OtpState) (i : Nat) (key : JSString)
    (h : key ≠ utf16 "Backspace") : onOtpKeydown s i key = s := by
  unfold onOtpKeydown
  cases s.inputs[i]? with
  | none => rfl
  | some input => simp [h]

/-- C18 as stated fails at a slot that already holds a character.  Six slots, the first
holding 1 and marked filled, with the focus on it; the digit 2 is typed there.  Without
a maxlength on the slot the value becomes 12, the class filled is removed and the focus
stays on slot 0 although it is not the last slot; with maxlength 1 nothing is inserted,
so the slot still holds 1 and the focus stays as well.  Either way the typed digit is
not what the slot stores and the focus does not advance.  Besides, the keypress
listener tests for a digit anywhere in the key value, so it lets the key value F1
through. -/
theorem typeChar_counterexample :
    isDigit09 50 = true ∧
    (typeChar config Option.none revisitedOtp 0 [50]).inputs[0]?
      = some { value := utf16 "12", classList := [] } ∧
    (typeChar config Option.none revisitedOtp 0 [50]).focus = some 0 ∧
    typeChar config (some 1) revisitedOtp 0 [50] = revisitedOtp ∧
    revisitedOtp.inputs[0]? = some { value := utf16 "1", classList := ["filled"] } ∧
    revisitedOtp.focus = some 0 ∧ 0 + 1 < revisitedOtp.inputs.length ∧
    keypressPrevented (utf16 "F1") = false := by
  decide

/-- C18 (amended): at every slot i that is empty and accepts at least one character, a
typed digit key is stored as the value of the slot, the slot is marked filled, no other
slot changes, and the focus moves to slot i+1 unless i is the last slot, in which case
the focus stays.  At every slot, empty or not, a typed character key that is not a
digit is rejected by the keypress listener: nothing is stored and the focus does not
move. -/
theorem typeChar_spec (cfg : Config) (maxLength : Option Nat) (s : OtpState) (i : Nat)
    (input : OtpInput) (hi : s.inputs[i]? = some input) :
    (∀ c, isDigit09 c = true → input.value = [] → (∀ n, maxLength = some n → 1 ≤ n) →
      (typeChar cfg maxLength s i [c]).inputs[i]?
        = some { value := [c], classList := classListAdd input.classList "filled" } ∧
      "filled" ∈ classListAdd input.classList "filled" ∧
      (∀ j, j ≠ i → (typeChar cfg maxLength s i [c]).inputs[j]? = s.inputs[j]?) ∧
      (i + 1 < s.inputs.length → (typeChar cfg maxLength s i [c]).focus = some (i + 1)) ∧
      (i + 1 = s.inputs.length → (typeChar cfg maxLength s i [c]).focus = s.focus)) ∧
    (∀ key, isCharacterKey key = true → (∀ c, isDigit09 c = true → key ≠ [c]) →
      keypressPrevented key = true ∧ typeChar cfg maxLength s i key = s) := by
  have hlt : i < s.inputs.length := by
    rcases Nat.lt_or_ge i s.inputs.length with h | h
    · exact h
    · rw [List.getElem?_eq_none h] at hi; cases hi
  constructor
  · intro c hc hempty hmax
    have hins : insertText maxLength input.value [c] = some [c] := by
      cases maxLength with
      | none => simp [insertText, hempty]
      | some n =>
        have := hmax n rfl
        simp [insertText, hempty, this]
    have hstep : typeChar cfg maxLength s i [c] = typeKey cfg s i [c] [c] := by
      simp only [typeChar, hi, hins]
    rw [hstep]
    obtain ⟨hin, hfocus⟩ := typeKey_digit cfg s i input c hi hc
    refine ⟨?_, mem_classListAdd _ _, ?_, ?_, ?_⟩
    · rw [hin, List.getElem?_set_self hlt]; rfl
    · intro j hj
      rw [hin, List.getElem?_set_ne (Ne.symm hj)]
    · intro h
      rw [hfocus, if_pos (by omega)]
    · intro h
      rw [hfocus, if_neg (by omega)]
  · intro key hkey hd
    obtain ⟨hnd, hnb⟩ := characterKey_not_digit key hkey hd
    have hp : keypressPrevented key = true := by simp [keypressPrevented, hnd]
    refine ⟨hp, ?_⟩
    simp only [typeChar, hi]
    cases insertText maxLength input.value key with
    | none => exact onOtpKeydown_other s i key hnb
    | some v => simp [typeKey, onOtpKeydown_other s i key hnb, hp]

/-- Witness for C18 (amended): the digit 7 typed into the first of six empty slots
without a maxlength, and the letter a typed there. -/
theorem typeChar_spec_witness :
    (emptyOtp 6).inputs[0]? = some { value := [], classList := [] } ∧
    isDigit09 55 = true ∧
    (typeChar config Option.none (emptyOtp 6) 0 [55]).inputs[0]?
      = some { value := [55], classList := classListAdd [] "filled" } ∧
    (typeChar config Option.none (emptyOtp 6) 0 [55]).focus = some 1 ∧
    typeChar config Option.none (emptyOtp 6) 0 [97] = emptyOtp 6 :=
  have h := typeChar_spec config Option.none (emptyOtp 6) 0 { value := [], classList := [] }
    (by decide)
  ⟨by decide, by decide, (h.1 55 (by decide) rfl (by simp)).1,
    (h.1 55 (by decide) rfl (by simp)).2.2.2.1 (by decide),
    (h.2 [97] (by decide)
      (fun c hc heq => by cases heq; exact absurd hc (by decide))).2⟩

/-! ## Resend timer -/

theorem runTimer_append (cfg : Config) (e1 e2 : List TimerEvent) (t : ResendTimer) :
    runTimer cfg (e1 ++ e2) t = runTimer cfg e2 (runTimer cfg e1 t) := by
  simp [runTimer, List.foldl_append]

theorem runTimer_cons (cfg : Config) (e : TimerEvent) (es : List TimerEvent)
    (t : ResendTimer) : runTimer cfg (e :: es) t = runTimer cfg es (timerStep cfg t e) := rfl

theorem onResendClick_disabled (cfg : Config) (t : ResendTimer) (h : t.disabled = true) :
    onResendClick cfg t = t := by
  simp [onResendClick, h]

theorem onInterval_more (t : ResendTimer) (h : 2 ≤ t.countdown) :
    onInterval t = countedDown t := by
  have : ¬ t.countdown - 1 ≤ 0 := by omega
  simp [onInterval, this, countedDown]

theorem onInterval_last (t : ResendTimer) (h : t.countdown = 1) :
    onInterval t = expired t := by
  simp [onInterval, h, expired]

theorem timerInv_step (cfg : Config) (t : ResendTimer) (e : TimerEvent)
    (h : TimerInv cfg t) : TimerInv cfg (timerStep cfg t e) := by
  cases e with
  | second =>
    rcases h with ⟨ha, hdis, hc⟩ | ⟨ha, hdis, hc⟩ | ⟨ha, hdis, hc⟩
    · simp only [timerStep, ha, if_true]
      by_cases h1 : t.countdown = 1
      · rw [onInterval_last t h1]
        exact Or.inr (Or.inl ⟨rfl, rfl, rfl⟩)
      · rw [onInterval_more t (by omega)]
        exact Or.inl ⟨ha, hdis, by simp only [countedDown]; omega⟩
    · simp only [timerStep, ha]
      exact Or.inr (Or.inl ⟨ha, hdis, hc⟩)
    · simp only [timerStep, ha]
      exact Or.inr (Or.inr ⟨ha, hdis, hc⟩)
  | click =>
    rcases h with ⟨ha, hdis, hc⟩ | ⟨ha, hdis, hc⟩ | ⟨ha, hdis, hc⟩
    · simp only [timerStep, onResendClick_disabled cfg t hdis]
      exact Or.inl ⟨ha, hdis, hc⟩
    · simp only [timerStep, onResendClick, hdis, resendOtp]
      exact Or.inr (Or.inr ⟨ha, rfl, rfl⟩)
    · simp only [timerStep, onResendClick_disabled cfg t hdis]
      exact Or.inr (Or.inr ⟨ha, hdis, hc⟩)

theorem timerInv_run (cfg : Config) (events : List TimerEvent) (t : ResendTimer)
    (h : TimerInv cfg t) : TimerInv cfg (runTimer cfg events t) := by
  induction events generalizing t with
  | nil => exact h
  | cons e es ih => exact ih _ (timerInv_step cfg t e h)

theorem timerInv_init (cfg : Config) (hd : 1 ≤ cfg.resendOtpDelay) :
    TimerInv cfg (initResendTimer cfg) := by
  refine Or.inl ⟨rfl, rfl, ?_⟩
  simp only [initResendTimer]
  omega

theorem countdown_run (cfg : Config) (events : List TimerEvent) :
    ∀ t : ResendTimer, t.intervalActive = true → t.disabled = true →
      (events.count TimerEvent.second : Int) < t.countdown →
      (runTimer cfg events t).intervalActive = true ∧
      (runTimer cfg events t).disabled = true ∧
      (runTimer cfg events t).countdown = t.countdown - events.count TimerEvent.second ∧
      (runTimer cfg events t).resendCalls = t.resendCalls := by
  induction events with
  | nil => intro t ha hdis _; simp [runTimer, ha, hdis]
  | cons e es ih =>
    intro t ha hdis hlt
    rw [runTimer_cons]
    cases e with
    | second =>
      simp only [List.count_cons_self, Nat.cast_add, Nat.cast_one] at hlt ⊢
      have h2 : 2 ≤ t.countdown := by omega
      simp only [timerStep, ha, if_true, onInterval_more t h2]
      obtain ⟨r1, r2, r3, r4⟩ := ih (countedDown t) ha hdis
        (by simp only [countedDown]; omega)
      refine ⟨r1, r2, ?_, r4⟩
      rw [r3]
      simp only [countedDown]
      omega
    | click =>
      have hc : List.count TimerEvent.second (TimerEvent.click :: es)
          = List.count TimerEvent.second es := by
        simp [List.count_cons]
      rw [hc] at hlt ⊢
      simp only [timerStep, onResendClick_disabled cfg t hdis]
      exact ih t ha hdis hlt

theorem runTimer_inert (cfg : Config) (events : List TimerEvent) (t : ResendTimer)
    (ha : t.intervalActive = false) (hdis : t.disabled = true) :
    runTimer cfg events t = t := by
  induction events with
  | nil => rfl
  | cons e es ih =>
    rw [runTimer_cons]
    cases e with
    | second => simpa [timerStep, ha] using ih
    | click => simpa [timerStep, onResendClick_disabled cfg t hdis] using ih

theorem runTimer_delay (cfg : Config) (hd : 1 ≤ cfg.resendOtpDelay) :
    runTimer cfg (List.replicate cfg.resendOtpDelay TimerEvent.second) (initResendTimer cfg)
      = { countdown := 0, disabled := false, textContent := some "Resend OTP",
          intervalActive := false, resendCalls := 0, messages := [] } := by
  obtain ⟨n, hn⟩ : ∃ n, cfg.resendOtpDelay = n + 1 := ⟨cfg.resendOtpDelay - 1, by omega⟩
  rw [hn, List.replicate_succ', runTimer_append]
  have hinit : (initResendTimer cfg).countdown = (n : Int) + 1 := by
    simp [initResendTimer, hn]
  obtain ⟨r1, r2, r3, r4⟩ := countdown_run cfg (List.replicate n TimerEvent.second)
    (initResendTimer cfg) rfl rfl (by rw [hinit]; simp)
  have hone : (runTimer cfg (List.replicate n TimerEvent.second)
      (initResendTimer cfg)).countdown = 1 := by
    rw [r3, hinit]; simp
  have hm : (runTimer cfg (List.replicate n TimerEvent.second)
      (initResendTimer cfg)).messages = [] := by
    have key : ∀ (es : List TimerEvent) (t : ResendTimer), t.disabled = true →
        t.intervalActive = true → (es.count TimerEvent.second : Int) < t.countdown →
        (runTimer cfg es t).messages = t.messages := by
      intro es
      induction es with
      | nil => intro t _ _ _; rfl
      | cons e es ih =>
        intro t hdis ha hlt
        rw [runTimer_cons]
        cases e with
        | second =>
          simp only [List.count_cons_self, Nat.cast_add, Nat.cast_one] at hlt
          simp only [timerStep, ha, if_true, onInterval_more t (by omega)]
          exact ih (countedDown t) hdis ha (by simp only [countedDown]; omega)
        | click =>
          have hc : List.count TimerEvent.second (TimerEvent.click :: es)
              = List.count TimerEvent.second es := by
            simp [List.count_cons]
          rw [hc] at hlt
          simp only [timerStep, onResendClick_disabled cfg t hdis]
          exact ih t hdis ha hlt
    exact key _ _ rfl rfl (by rw [hinit]; simp)
  rw [runTimer_cons]
  simp only [timerStep, r1, if_true]
  rw [onInterval_last _ hone]
  have r4b : (runTimer cfg (List.replicate n TimerEvent.second)
      (initResendTimer cfg)).resendCalls = 0 := r4
  simp only [runTimer_cons, runTimer, List.foldl_nil, expired] at *
  simp only [r4b, hm]

/-- C19: for a resend timer started with a configured delay of at least 1, in every
reachable state the link is enabled exactly when the remaining seconds are 0; it is
still disabled, with the delay minus the elapsed seconds remaining, after fewer than
delay ticks whatever clicks came in between, and enabled after exactly delay ticks;
and a click while the link is disabled changes nothing at all, so `resendOtp` is not
invoked and the remaining seconds and the disabled flag stay as they were. -/
theorem resendTimer_spec (cfg : Config) (hd : 1 ≤ cfg.resendOtpDelay) :
    (∀ events,
      (runTimer cfg events (initResendTimer cfg)).disabled = false ↔
      (runTimer cfg events (initResendTimer cfg)).countdown = 0) ∧
    (∀ events, events.count TimerEvent.second < cfg.resendOtpDelay →
      (runTimer cfg events (initResendTimer cfg)).disabled = true ∧
      (runTimer cfg events (initResendTimer cfg)).countdown
        = (cfg.resendOtpDelay : Int) - (events.count TimerEvent.second : Int) ∧
      (runTimer cfg events (initResendTimer cfg)).resendCalls = 0) ∧
    ((runTimer cfg (List.replicate cfg.resendOtpDelay TimerEvent.second)
        (initResendTimer cfg)).disabled = false ∧
      (runTimer cfg (List.replicate cfg.resendOtpDelay TimerEvent.second)
        (initResendTimer cfg)).countdown = 0) ∧
    (∀ t : ResendTimer, t.disabled = true → timerStep cfg t TimerEvent.click = t) := by
  refine ⟨?_, ?_, ?_, ?_⟩
  · intro events
    have hinv := timerInv_run cfg events _ (timerInv_init cfg hd)
    rcases hinv with ⟨_, hdis, hc⟩ | ⟨_, hdis, hc⟩ | ⟨_, hdis, hc⟩
    · rw [hdis]
      constructor
      · intro h; cases h
      · intro h; omega
    · rw [hdis, hc]
      exact ⟨fun _ => rfl, fun _ => rfl⟩
    · rw [hdis, hc]
      constructor
      · intro h; cases h
      · intro h; omega
  · intro events hlt
    obtain ⟨_, r2, r3, r4⟩ := countdown_run cfg events (initResendTimer cfg) rfl rfl
      (by simp only [initResendTimer]; omega)
    exact ⟨r2, r3, r4⟩
  · rw [runTimer_delay cfg hd]
    exact ⟨rfl, rfl⟩
  · intro t ht
    exact onResendClick_disabled cfg t ht

/-- Witness for C19: the default configuration, 59 seconds and some clicks in. -/
theorem resendTimer_spec_witness :
    1 ≤ config.resendOtpDelay ∧
    (runTimer config (TimerEvent.click :: List.replicate 59 TimerEvent.second)
      (initResendTimer config)).disabled = true ∧
    (runTimer config (List.replicate config.resendOtpDelay TimerEvent.second)
      (initResendTimer config)).disabled = false :=
  have h := resendTimer_spec config (by decide)
  ⟨by decide, (h.2.1 (TimerEvent.click :: List.replicate 59 TimerEvent.second)
    (by decide)).1, h.2.2.1.1⟩

theorem runTimer_delay_click (cfg : Config) (hd : 1 ≤ cfg.resendOtpDelay) :
    runTimer cfg (List.replicate cfg.resendOtpDelay TimerEvent.second ++ [TimerEvent.click])
        (initResendTimer cfg)
      = { countdown := cfg.resendOtpDelay, disabled := true, textContent := some "Resend OTP",
          intervalActive := false, resendCalls := 1,
          messages := [(utf16 "OTP has been resent to your email", "success")] } := by
  rw [runTimer_append, runTimer_delay cfg hd]
  simp [runTimer, timerStep, onResendClick, resendOtp]

/-- C20 (code at the failing input): with the default delay of 60, after 60 seconds
and an accepted click `resendOtp` has been invoked once, the counter is back at 60 and
the link is disabled, but the interval that was cleared at zero is not installed
again: whatever happens afterwards, however many seconds pass, the state never
changes and the link stays disabled. -/
theorem resend_click_does_not_restart :
    (runTimer config (List.replicate 60 TimerEvent.second ++ [TimerEvent.click])
      (initResendTimer config)).resendCalls = 1 ∧
    (runTimer config (List.replicate 60 TimerEvent.second ++ [TimerEvent.click])
      (initResendTimer config)).countdown = 60 ∧
    (runTimer config (List.replicate 60 TimerEvent.second ++ [TimerEvent.click])
      (initResendTimer config)).disabled = true ∧
    (runTimer config (List.replicate 60 TimerEvent.second ++ [TimerEvent.click])
      (initResendTimer config)).intervalActive = false ∧
    (∀ events, (runTimer config
      (List.replicate 60 TimerEvent.second ++ [TimerEvent.click] ++ events)
      (initResendTimer config)).disabled = true) ∧
    (runTimer config (List.replicate 60 TimerEvent.second ++ [TimerEvent.click]
      ++ List.replicate 60 TimerEvent.second) (initResendTimer config)).countdown = 60 := by
  have h := runTimer_delay_click config (by decide)
  have h60 : config.resendOtpDelay = 60 := rfl
  rw [h60] at h
  refine ⟨by rw [h], by rw [h]; rfl, by rw [h], by rw [h], ?_, ?_⟩
  · intro events
    rw [runTimer_append, h, runTimer_inert config events _ rfl rfl]
  · rw [runTimer_append, h, runTimer_inert config _ _ rfl rfl]
    rfl

/-! ## Strong passwords need a special character -/

theorem ind_le_one (b : Bool) : ind b ≤ 1 := by
  cases b <;> simp [ind]

theorem ind_eq_one_iff (b : Bool) : ind b = 1 ↔ b = true := by
  cases b <;> simp [ind]

/-- C21: a password rated strong contains a character outside a-z, A-Z, 0-9 and has
length at least 12; so a password made only of characters in a-z, A-Z, 0-9 is never
rated strong, whatever its length. -/
theorem strong_needs_special (password : JSString) :
    ((calculatePasswordStrength password).level = "strong" →
      (∃ c ∈ password, isSpecial c = true) ∧ password.length ≥ 12) ∧
    ((∀ c ∈ password, isSpecial c = false) →
      (calculatePasswordStrength password).level ≠ "strong") := by
  have key : (calculatePasswordStrength password).level = "strong" →
      testClass isSpecial password = true ∧ password.length ≥ 12 := by
    intro hs
    by_cases h : password = []
    · subst h
      exact absurd hs (by decide)
    · have hsc := score_eq_indicators password h
      have hlv := (level_by_thresholds password).2 h
      have h7 : (calculatePasswordStrength password).score ≥ 7 := by
        by_contra hlt
        rw [hlv, if_neg hlt] at hs
        split_ifs at hs <;> exact absurd hs (by decide)
      have b8 := ind_le_one (decide (password.length ≥ 8))
      have b12 := ind_le_one (decide (password.length ≥ 12))
      have b16 := ind_le_one (decide (password.length ≥ 16))
      have bl := ind_le_one (testClass isLowerAZ password)
      have bu := ind_le_one (testClass isUpperAZ password)
      have bd := ind_le_one (testClass isDigit09 password)
      have bs := ind_le_one (testClass isSpecial password)
      have hsp : ind (testClass isSpecial password) = 1 := by omega
      have h16 : ind (decide (password.length ≥ 16)) = 1 →
          ind (decide (password.length ≥ 12)) = 1 := by
        intro h1
        have := (ind_eq_one_iff _).mp h1
        simp only [decide_eq_true_eq] at this
        exact (ind_eq_one_iff _).mpr (by simp only [decide_eq_true_eq]; omega)
      have h12 : ind (decide (password.length ≥ 12)) = 1 := by
        by_contra hne
        have h16n : ind (decide (password.length ≥ 16)) ≠ 1 := fun h1 => hne (h16 h1)
        omega
      refine ⟨(ind_eq_one_iff _).mp hsp, ?_⟩
      have := (ind_eq_one_iff _).mp h12
      simpa using this
  constructor
  · intro hs
    obtain ⟨hsp, hlen⟩ := key hs
    refine ⟨?_, hlen⟩
    simpa [testClass, List.any_eq_true] using hsp
  · intro hall hs
    obtain ⟨hsp, _⟩ := key hs
    simp only [testClass, List.any_eq_true] at hsp
    obtain ⟨c, hc, hcs⟩ := hsp
    rw [hall c hc] at hcs
    cases hcs

/-- Witness for C21: the strong password `Abcdefghij1!` and the letters-and-digits
password `Abcdefghijklmnop1234`. -/
theorem strong_needs_special_witness :
    (calculatePasswordStrength (utf16 "Abcdefghij1!")).level = "strong" ∧
    ((∃ c ∈ utf16 "Abcdefghij1!", isSpecial c = true) ∧
      (utf16 "Abcdefghij1!").length ≥ 12) ∧
    (∀ c ∈ utf16 "Abcdefghijklmnop1234", isSpecial c = false) ∧
    (calculatePasswordStrength (utf16 "Abcdefghijklmnop1234")).level ≠ "strong" :=
  ⟨by decide, (strong_needs_special (utf16 "Abcdefghij1!")).1 (by decide), by decide,
    (strong_needs_special (utf16 "Abcdefghijklmnop1234")).2 (by decide)⟩

/-! ## The submit button stays unlocked -/

theorem checkOtpComplete_submitDisabled (cfg : Config) (s : OtpState) :
    (checkOtpComplete cfg s).submitDisabled = s.submitDisabled ∨
    (checkOtpComplete cfg s).submitDisabled = s.submitDisabled.map (fun _ => false) := by
  unfold checkOtpComplete
  simp only
  split_ifs
  · exact Or.inr rfl
  · exact Or.inl rfl

theorem checkOtpComplete_unlocked (cfg : Config) (s : OtpState)
    (h : s.submitDisabled = some false) :
    (checkOtpComplete cfg s).submitDisabled = some false := by
  rcases checkOtpComplete_submitDisabled cfg s with h1 | h1
  · rw [h1, h]
  · rw [h1, h]; rfl

theorem onOtpInput_unlocked (cfg : Config) (s : OtpState) (index : Nat)
    (h : s.submitDisabled = some false) :
    (onOtpInput cfg s index).submitDisabled = some false := by
  unfold onOtpInput
  cases s.inputs[index]? with
  | none => exact h
  | some input =>
    simp only
    apply checkOtpComplete_unlocked
    split_ifs <;> exact h

theorem editSlot_unlocked (cfg : Config) (s : OtpState) (index : Nat) (v : JSString)
    (h : s.submitDisabled = some false) :
    (editSlot cfg s index v).submitDisabled = some false := by
  unfold editSlot
  cases s.inputs[index]? with
  | none => exact h
  | some input => exact onOtpInput_unlocked cfg _ index h

theorem otpStep_unlocked (cfg : Config) (s : OtpState) (e : OtpEvent)
    (h : s.submitDisabled = some false) :
    (otpStep cfg s e).submitDisabled = some false := by
  cases e with
  | edit index v => exact editSlot_unlocked cfg s index v h
  | keydown index key =>
    simp only [otpStep, onOtpKeydown]
    cases s.inputs[index]? with
    | none => exact h
    | some input =>
      simp only
      split_ifs <;> exact h
  | paste index text =>
    simp only [otpStep, onOtpPaste]
    apply checkOtpComplete_unlocked
    split_ifs <;> exact h

theorem runOtp_unlocked (cfg : Config) (events : List OtpEvent) :
    ∀ s : OtpState, s.submitDisabled = some false →
      (runOtp cfg events s).submitDisabled = some false := by
  induction events with
  | nil => intro s h; exact h
  | cons e es ih => intro s h; exact ih _ (otpStep_unlocked cfg s e h)

/-- C22: `checkOtpComplete` leaves the slots and the focus alone and either sets the
disabled flag of the submit button to false or leaves it as it was, so it never
disables the button; and once the button is unlocked, no later edit, key or paste on
the slots locks it again, in particular not an edit that empties a slot. -/
theorem checkOtpComplete_frame (cfg : Config) (s : OtpState) :
    (checkOtpComplete cfg s).inputs = s.inputs ∧
    (checkOtpComplete cfg s).focus = s.focus ∧
    ((checkOtpComplete cfg s).submitDisabled = s.submitDisabled ∨
      (checkOtpComplete cfg s).submitDisabled = s.submitDisabled.map (fun _ => false)) ∧
    ((checkOtpComplete cfg s).submitDisabled = some true → s.submitDisabled = some true) ∧
    (s.submitDisabled = some false →
      (∀ index, (editSlot cfg s index []).submitDisabled = some false) ∧
      (∀ events, (runOtp cfg events s).submitDisabled = some false)) := by
  refine ⟨checkOtpComplete_inputs cfg s, checkOtpComplete_focus cfg s,
    checkOtpComplete_submitDisabled cfg s, ?_, ?_⟩
  · intro h
    rcases checkOtpComplete_submitDisabled cfg s with h1 | h1
    · rw [← h1]; exact h
    · rw [h1] at h
      cases hs : s.submitDisabled with
      | none => rw [hs] at h; cases h
      | some b => rw [hs] at h; cases h
  · intro h
    exact ⟨fun index => editSlot_unlocked cfg s index [] h,
      fun events => runOtp_unlocked cfg events s h⟩

/-- Witness for C22: six slots holding `123456` unlock the button; emptying slot 2
afterwards leaves five filled slots and the button still unlocked. -/
theorem checkOtpComplete_frame_witness :
    (checkOtpComplete config
      (otpOf [utf16 "1", utf16 "2", utf16 "3", utf16 "4", utf16 "5", utf16 "6"])).submitDisabled
      = some false ∧
    (editSlot config (checkOtpComplete config
      (otpOf [utf16 "1", utf16 "2", utf16 "3", utf16 "4", utf16 "5", utf16 "6"])) 2
      []).inputs.map OtpInput.value
      = [utf16 "1", utf16 "2", [], utf16 "4", utf16 "5", utf16 "6"] ∧
    (editSlot config (checkOtpComplete config
      (otpOf [utf16 "1", utf16 "2", utf16 "3", utf16 "4", utf16 "5", utf16 "6"])) 2
      []).submitDisabled = some false :=
  ⟨by decide, by decide,
    ((checkOtpComplete_frame config (checkOtpComplete config
      (otpOf [utf16 "1", utf16 "2", utf16 "3", utf16 "4", utf16 "5", utf16 "6"]))).2.2.2.2
      (by decide)).1 2⟩

end Auth
